import Mathlib

/-!
Verification of the pharma-os order lifecycle engine.

Shallow embedding of the TypeScript sources:
- `packages/server/src/services/order/stateMachine.ts` (order status state machine)
- `packages/server/src/services/order/orderService.ts` (lifecycle orchestrator)
- `packages/server/src/services/whatsapp/parser.ts` (item extractor)
- `packages/server/src/api/controllers/webhookController.ts` (intent resolver / chat webhook)
- `packages/server/src/services/delivery/deliveryService.ts` (delivery orchestrator)
- `packages/server/src/api/controllers/deliveryController.ts` (courier webhook)
- `packages/server/src/api/controllers/orderController.ts` (dashboard transition API)

Database tables are modelled as lists of rows; each SQL statement of the source
becomes an explicit read or write on that state.  Asynchronous collaborator
calls (the Borzo courier client, the Twilio sender) are modelled as explicit
parameters carrying the collaborator's response, so that both the success and
the failure path of every call site are represented.
-/

/-! # Order status state machine (stateMachine.ts) -/

inductive OrderStatus
  | pending
  | awaiting_rx
  | rx_received
  | under_review
  | confirmed
  | awaiting_payment
  | payment_confirmed
  | ready_for_pickup
  | completed
  | cancelled
deriving DecidableEq, Repr

inductive PaymentMethod
  | upi
  | cod
deriving DecidableEq, Repr

/-- `OrderEvent` from stateMachine.ts: a tagged union, two constructors carry payloads.
Monetary amounts are modelled as `ℚ` (the source uses JS numbers holding positive
decimals), cancellation/unavailability reasons as `String`. -/
inductive OrderEvent
  | RX_REQUIRED
  | RX_UPLOADED
  | START_REVIEW
  | CONFIRM_AVAILABILITY (totalAmount : ℚ) (paymentMethod : PaymentMethod)
  | ITEMS_UNAVAILABLE (reason : String)
  | PAYMENT_RECEIVED
  | MARK_READY
  | MARK_COMPLETED
  | CANCEL (reason : String)
deriving DecidableEq, Repr

/-- The event's `type` discriminant (the payload-free tag used as lookup key). -/
inductive EventType
  | RX_REQUIRED
  | RX_UPLOADED
  | START_REVIEW
  | CONFIRM_AVAILABILITY
  | ITEMS_UNAVAILABLE
  | PAYMENT_RECEIVED
  | MARK_READY
  | MARK_COMPLETED
  | CANCEL
deriving DecidableEq, Repr

def eventType : OrderEvent → EventType
  | .RX_REQUIRED => .RX_REQUIRED
  | .RX_UPLOADED => .RX_UPLOADED
  | .START_REVIEW => .START_REVIEW
  | .CONFIRM_AVAILABILITY _ _ => .CONFIRM_AVAILABILITY
  | .ITEMS_UNAVAILABLE _ => .ITEMS_UNAVAILABLE
  | .PAYMENT_RECEIVED => .PAYMENT_RECEIVED
  | .MARK_READY => .MARK_READY
  | .MARK_COMPLETED => .MARK_COMPLETED
  | .CANCEL _ => .CANCEL

/-- A table entry is either a single destination status, or (for
`CONFIRM_AVAILABILITY` from `under_review`) the two-element array
`['awaiting_payment', 'confirmed']` resolved later from the event payload. -/
inductive NextState
  | to (s : OrderStatus)
  | confirmBranch
deriving DecidableEq, Repr

/-- The `transitions` record of stateMachine.ts: per current status, the partial map
from event type to destination.  Absent keys are `none`. -/
def transitions : OrderStatus → EventType → Option NextState
  | .pending, .RX_REQUIRED => some (.to .awaiting_rx)
  | .pending, .START_REVIEW => some (.to .under_review)
  | .pending, .CANCEL => some (.to .cancelled)
  | .awaiting_rx, .RX_UPLOADED => some (.to .rx_received)
  | .awaiting_rx, .CANCEL => some (.to .cancelled)
  | .rx_received, .START_REVIEW => some (.to .under_review)
  | .rx_received, .CANCEL => some (.to .cancelled)
  | .under_review, .CONFIRM_AVAILABILITY => some .confirmBranch
  | .under_review, .ITEMS_UNAVAILABLE => some (.to .cancelled)
  | .under_review, .RX_REQUIRED => some (.to .awaiting_rx)
  | .under_review, .CANCEL => some (.to .cancelled)
  | .confirmed, .MARK_READY => some (.to .ready_for_pickup)
  | .confirmed, .CANCEL => some (.to .cancelled)
  | .awaiting_payment, .PAYMENT_RECEIVED => some (.to .payment_confirmed)
  | .awaiting_payment, .CANCEL => some (.to .cancelled)
  | .payment_confirmed, .MARK_READY => some (.to .ready_for_pickup)
  | .payment_confirmed, .CANCEL => some (.to .cancelled)
  | .ready_for_pickup, .MARK_COMPLETED => some (.to .completed)
  | .ready_for_pickup, .CANCEL => some (.to .cancelled)
  | _, _ => none

/-- `getNextStatus` from stateMachine.ts: table lookup by `(status, event.type)`,
with the `CONFIRM_AVAILABILITY` array entry resolved by the event's
`paymentMethod` (`upi` yields `awaiting_payment`, otherwise `confirmed`). -/
def getNextStatus (currentStatus : OrderStatus) (event : OrderEvent) : Option OrderStatus :=
  match transitions currentStatus (eventType event) with
  | none => none
  | some (.to s) => some s
  | some .confirmBranch =>
      match event with
      | .CONFIRM_AVAILABILITY _ pm =>
          some (if pm = .upi then .awaiting_payment else .confirmed)
      | _ => some .confirmed
      -- the second arm is unreachable: `confirmBranch` is stored only under the
      -- `CONFIRM_AVAILABILITY` key and the lookup key is the event's own type

/-- `canTransition` from stateMachine.ts. -/
def canTransition (currentStatus : OrderStatus) (t : EventType) : Bool :=
  (transitions currentStatus t).isSome

/-- `isTerminalStatus` from stateMachine.ts. -/
def isTerminalStatus (status : OrderStatus) : Bool :=
  status = .completed || status = .cancelled

/-! # Character and string primitives

JS strings are modelled as `List Char`.  Only the ASCII behaviour of
`toLowerCase`, `trim` and the regex classes `\s`, `\d` is needed (every string
the engine inspects is ASCII), so the primitives below implement the ASCII
case. -/

abbrev Str := List Char

/-- The regex class `\s` / the characters removed by `trim` (ASCII part). -/
def jsWS (c : Char) : Bool :=
  decide (c = ' ' ∨ c = '\t' ∨ c = '\n' ∨ c = '\r' ∨ c = '\x0b' ∨ c = '\x0c')

/-- The regex class `\d`. -/
def isDigitC (c : Char) : Bool :=
  decide (48 ≤ c.toNat ∧ c.toNat ≤ 57)

/-- ASCII `toLowerCase` on one character. -/
def lowerC (c : Char) : Char :=
  if 65 ≤ c.toNat ∧ c.toNat ≤ 90 then Char.ofNat (c.toNat + 32) else c

/-- `String.prototype.toLowerCase`. -/
def lowerLC (l : Str) : Str := l.map lowerC

/-- `String.prototype.trim`. -/
def trimLC (l : Str) : Str :=
  ((l.dropWhile jsWS).reverse.dropWhile jsWS).reverse

/-- `parseInt(digits, 10)` on a nonempty digit run. -/
def natOfDigits (l : Str) : Nat :=
  l.foldl (fun n c => n * 10 + (c.toNat - 48)) 0

/-- Boolean prefix test on character lists. -/
def isPrefLC : Str → Str → Bool
  | [], _ => true
  | _ :: _, [] => false
  | a :: as, b :: bs => a = b && isPrefLC as bs

/-- Boolean contiguous-substring test (`String.prototype.includes`). -/
def isSubLC : Str → Str → Bool
  | n, [] => isPrefLC n []
  | n, c :: t => isPrefLC n (c :: t) || isSubLC n t

/-! # Item extractor (parser.ts) -/

structure ParsedItem where
  name : Str
  quantity : Nat
  raw : Str
deriving DecidableEq, Repr

structure ParseResult where
  items : List ParsedItem
  requiresRx : Bool
deriving DecidableEq, Repr

/-- `RX_KEYWORDS` from parser.ts. -/
def RX_KEYWORDS : List Str :=
  [ "antibiotic", "amoxicillin", "azithromycin", "ciprofloxacin", "levofloxacin",
    "cefixime", "ofloxacin", "metronidazole", "doxycycline",
    "steroid", "prednisolone", "dexamethasone", "betamethasone",
    "insulin", "metformin", "glimepiride",
    "sleeping", "alprazolam", "diazepam", "clonazepam", "zolpidem",
    "tramadol", "codeine", "morphine",
    "amlodipine", "losartan", "telmisartan", "atenolol",
    "antidepressant", "sertraline", "fluoxetine", "escitalopram",
    "schedule h", "schedule h1", "schedule x" ].map String.toList

/-- The regex class `[\s\-•*·→]` of bullet/noise characters. -/
def bulletC (c : Char) : Bool :=
  jsWS c || decide (c = '-' ∨ c = '•' ∨ c = '*' ∨ c = '·' ∨ c = '→')

/-- The punctuation class `[.):\s]` following a leading list number. -/
def numPunct (c : Char) : Bool :=
  jsWS c || decide (c = '.' ∨ c = ')' ∨ c = ':')

/-- `.replace(/^\d+[.):\s]+/, '')`: strip a leading list-number marker. -/
def stripNumPfx (l : Str) : Str :=
  let d := l.takeWhile isDigitC
  if d = [] then l
  else
    let r := l.drop d.length
    let m := r.takeWhile numPunct
    if m = [] then l else r.drop m.length

/-- The line cleaning of parseLineItem (bullet strip, list-number strip, trim). -/
def cleanLine (line : Str) : Str :=
  trimLC (stripNumPfx (line.dropWhile bulletC))

/-- The final name cleanup of parseLineItem (leading and trailing bullet runs, trim). -/
def finalCleanup (l : Str) : Str :=
  trimLC (((l.dropWhile bulletC).reverse.dropWhile bulletC).reverse)

/-- The shapes of the ten `quantityPatterns` regexes of parseLineItem.
`unitWord alts` is `(\d+)\s*(alt₁|alt₂|…)` with `alts` listing the literal
alternatives in the order the regex engine tries them (an optional plural `s?`
expands to the longer variant first). -/
inductive QtyPattern
  | xMark
  | unitWord (alts : List Str)
  | dashNum
  | trailingNum
deriving DecidableEq, Repr

/-- The `quantityPatterns` array of parseLineItem, in source order. -/
def quantityPatterns : List QtyPattern :=
  [ .xMark,
    .unitWord (["pcs", "pc", "pieces", "piece"].map String.toList),
    .unitWord (["strips", "strip"].map String.toList),
    .unitWord (["tablets", "tablet", "tabs", "tab"].map String.toList),
    .unitWord (["bottles", "bottle"].map String.toList),
    .unitWord (["units", "unit"].map String.toList),
    .unitWord (["boxes", "boxe"].map String.toList),
    .unitWord (["packets", "packet", "packs", "pack"].map String.toList),
    .dashNum,
    .trailingNum ]

/-- Try to match a quantity pattern at the start of `l`.  Returns the length of
`match[0]` and the value of the digit group.  Greedy matching with these
patterns never needs backtracking: after a maximal `\d+` run the next character
is not a digit, and no alternative begins with a digit or whitespace. -/
def matchAt : QtyPattern → Str → Option (Nat × Nat)
  | .xMark, c :: rest =>
      if lowerC c = 'x' ∨ c = '×' then
        let w := rest.takeWhile jsWS
        let d := (rest.drop w.length).takeWhile isDigitC
        if d = [] then none else some (1 + w.length + d.length, natOfDigits d)
      else none
  | .xMark, [] => none
  | .unitWord alts, l =>
      let d := l.takeWhile isDigitC
      if d = [] then none
      else
        let r₁ := l.drop d.length
        let w := r₁.takeWhile jsWS
        let r₂ := r₁.drop w.length
        match alts.find? (fun a => isPrefLC a (lowerLC r₂)) with
        | some a => some (d.length + w.length + a.length, natOfDigits d)
        | none => none
  | .dashNum, c :: rest =>
      if c = '-' ∨ c = '–' then
        let w := rest.takeWhile jsWS
        let d := (rest.drop w.length).takeWhile isDigitC
        if d = [] then none else some (1 + w.length + d.length, natOfDigits d)
      else none
  | .dashNum, [] => none
  | .trailingNum, l =>
      let d := l.takeWhile isDigitC
      if d = [] then none
      else if (l.drop d.length).all jsWS then some (l.length, natOfDigits d)
      else none

/-- Leftmost-match scan of `String.prototype.match`: try `matchAt` at position
`i`, `i+1`, …  Returns `(index, length of match[0], digit-group value)`. -/
def findMatchFrom (p : QtyPattern) : Nat → Str → Option (Nat × Nat × Nat)
  | _, [] => none
  | i, c :: rest =>
      match matchAt p (c :: rest) with
      | some (len, q) => some (i, len, q)
      | none => findMatchFrom p (i + 1) rest

def findMatch (p : QtyPattern) (l : Str) : Option (Nat × Nat × Nat) :=
  findMatchFrom p 0 l

/-- `cleaned.replace(pattern, '')`: remove the matched substring. -/
def replaceMatch (l : Str) (i len : Nat) : Str :=
  l.take i ++ l.drop (i + len)

/-- The pattern loop of parseLineItem: first pattern that matches with a sane
quantity (1–100) wins; an insane match falls through to the next pattern. -/
def firstSane : List QtyPattern → Str → Option (Nat × Nat × Nat)
  | [], _ => none
  | p :: ps, l =>
      match findMatch p l with
      | some (i, len, q) =>
          if 0 < q ∧ q ≤ 100 then some (i, len, q) else firstSane ps l
      | none => firstSane ps l

/-- `parseLineItem` from parser.ts. -/
def parseLineItem (line : Str) : Option ParsedItem :=
  if line.length < 2 then none
  else
    let cleaned := cleanLine line
    if cleaned = [] then none
    else
      let qn : Nat × Str :=
        match firstSane quantityPatterns cleaned with
        | some (i, len, q) => (q, trimLC (replaceMatch cleaned i len))
        | none => (1, cleaned)
      let name := finalCleanup qn.2
      if name = [] then none else some ⟨name, qn.1, line⟩

/-- `checkRxRequirement` from parser.ts. -/
def checkRxRequirement (items : List ParsedItem) : Bool :=
  let allText := List.intercalate " ".toList (items.map fun i => lowerLC i.name)
  RX_KEYWORDS.any fun keyword => isSubLC (lowerLC keyword) allText

/-- `\r\n → \n` then `\r → \n`, the normalisation of parseOrderMessage. -/
def normalizeNewlines : Str → Str
  | [] => []
  | '\r' :: '\n' :: rest => '\n' :: normalizeNewlines rest
  | '\r' :: rest => '\n' :: normalizeNewlines rest
  | c :: rest => c :: normalizeNewlines rest

def isDelim (c : Char) : Bool :=
  decide (c = ',' ∨ c = ';' ∨ c = '\n')

/-- `split(/[,;\n]/)`. -/
def splitDelims : Str → List Str
  | [] => [[]]
  | c :: rest =>
      if isDelim c then [] :: splitDelims rest
      else
        match splitDelims rest with
        | [] => [[c]]
        | s :: ss => (c :: s) :: ss

/-- `parseOrderMessage` from parser.ts. -/
def parseOrderMessage (message : Str) : ParseResult :=
  let lines :=
    ((splitDelims (normalizeNewlines message)).map trimLC).filter fun l => 0 < l.length
  let items := lines.filterMap parseLineItem
  { items := items, requiresRx := checkRxRequirement items }

/-! # Data model

Database tables as lists of rows.  UUID keys are modelled as `Nat`; timestamps
as `Nat` ticks.  Free-text columns the engine inspects (message bodies,
addresses, order numbers) are `Str`; opaque identifiers stay `String`. -/

structure OrderRow where
  id : Nat
  orderNumber : Str
  pharmacyId : Nat
  customerId : Nat
  status : OrderStatus
  rawMessage : Str
  parsedItems : Option (List ParsedItem)
  requiresRx : Bool
  paymentMethod : Option PaymentMethod
  totalAmount : Option ℚ
  deliveryAddress : Option Str
  createdAt : Nat
deriving DecidableEq, Repr

structure HistoryRow where
  orderId : Nat
  fromStatus : Option OrderStatus
  toStatus : OrderStatus
  changedBy : Option Nat
  reason : Option String
deriving DecidableEq, Repr

inductive Direction
  | inbound
  | outbound
deriving DecidableEq, Repr

structure MessageRow where
  sid : String
  orderId : Option Nat
  direction : Direction
  body : Str
deriving DecidableEq, Repr

inductive DeliveryStatus
  | pending
  | calculating
  | quoted
  | booked
  | courier_assigned
  | in_transit
  | delivered
  | cancelled
  | failed
deriving DecidableEq, Repr

structure DeliveryRow where
  id : Nat
  orderId : Nat
  pharmacyId : Nat
  customerId : Nat
  borzoOrderId : Option String
  borzoOrderNumber : Option String
  trackingUrl : Option String
  status : DeliveryStatus
  pickupAddress : Str
  deliveryAddress : Str
  finalPrice : Option ℚ
  courierName : Option String
  courierPhone : Option String
deriving DecidableEq, Repr

structure PrescriptionRow where
  orderId : Nat
  customerId : Nat
  mediaUrl : Option String
deriving DecidableEq, Repr

structure CustomerRow where
  id : Nat
  phone : String
  name : Option Str
  address : Option Str
deriving DecidableEq, Repr

structure PharmacyRow where
  id : Nat
  name : String
  phone : String
  address : Option Str
  pickupAddress : Option Str
  contactName : Option String
  upiId : Option String
deriving DecidableEq, Repr

structure DB where
  orders : List OrderRow
  history : List HistoryRow
  messages : List MessageRow
  deliveries : List DeliveryRow
  prescriptions : List PrescriptionRow
  customers : List CustomerRow
  pharmacies : List PharmacyRow
deriving DecidableEq, Repr

/-! # Order service (orderService.ts) -/

/-- The string value of the status enum (the literal stored in the database and
interpolated into error messages). -/
def statusName : OrderStatus → String
  | .pending => "pending"
  | .awaiting_rx => "awaiting_rx"
  | .rx_received => "rx_received"
  | .under_review => "under_review"
  | .confirmed => "confirmed"
  | .awaiting_payment => "awaiting_payment"
  | .payment_confirmed => "payment_confirmed"
  | .ready_for_pickup => "ready_for_pickup"
  | .completed => "completed"
  | .cancelled => "cancelled"

/-- The string value of the event type discriminant. -/
def eventTypeName : EventType → String
  | .RX_REQUIRED => "RX_REQUIRED"
  | .RX_UPLOADED => "RX_UPLOADED"
  | .START_REVIEW => "START_REVIEW"
  | .CONFIRM_AVAILABILITY => "CONFIRM_AVAILABILITY"
  | .ITEMS_UNAVAILABLE => "ITEMS_UNAVAILABLE"
  | .PAYMENT_RECEIVED => "PAYMENT_RECEIVED"
  | .MARK_READY => "MARK_READY"
  | .MARK_COMPLETED => "MARK_COMPLETED"
  | .CANCEL => "CANCEL"

/-- The error text thrown by transitionOrderStatus on an illegal transition. -/
def invalidTransitionMsg (event : OrderEvent) (s : OrderStatus) : String :=
  "Invalid transition: Cannot apply " ++ eventTypeName (eventType event) ++
    " to order in " ++ statusName s ++ " status"

def findOrderRow (db : DB) (orderId pharmacyId : Nat) : Option OrderRow :=
  db.orders.find? fun o => decide (o.id = orderId ∧ o.pharmacyId = pharmacyId)

/-- `getOrderById`: orders joined with customers on `customer_id`. -/
def getOrderById (db : DB) (orderId pharmacyId : Nat) : Option (OrderRow × CustomerRow) :=
  match findOrderRow db orderId pharmacyId with
  | none => none
  | some o =>
      match db.customers.find? fun c => decide (c.id = o.customerId) with
      | none => none
      | some c => some (o, c)

/-- `logStatusChange`: append-only insert into order_status_history. -/
def logStatusChange (db : DB) (orderId : Nat) (fromStatus : Option OrderStatus)
    (toStatus : OrderStatus) (changedBy : Option Nat) (reason : Option String) : DB :=
  { db with history := db.history ++ [⟨orderId, fromStatus, toStatus, changedBy, reason⟩] }

/-- The row update of the transition UPDATE statement:
`SET status = $1, total_amount = COALESCE($2, total_amount),
payment_method = COALESCE($3, payment_method)` where `$2`/`$3` are
`updateInput.totalAmount || null` and `updateInput.paymentMethod || null`
(JS `||` maps a zero amount to null). -/
def applyTransitionUpdate (event : OrderEvent) (nextStatus : OrderStatus)
    (o : OrderRow) : OrderRow :=
  let amt : Option ℚ :=
    match event with
    | .CONFIRM_AVAILABILITY a _ => if a = 0 then none else some a
    | _ => none
  let pm : Option PaymentMethod :=
    match event with
    | .CONFIRM_AVAILABILITY _ m => some m
    | _ => none
  { o with
    status := nextStatus
    totalAmount := match amt with | some a => some a | none => o.totalAmount
    paymentMethod := match pm with | some m => some m | none => o.paymentMethod }

/-- The `reason` recorded in the audit row (set only by `CANCEL`). -/
def transitionReason : OrderEvent → Option String
  | .CANCEL r => some r
  | _ => none

/-- `transitionOrderStatus` from orderService.ts.  The pair carries the state
after the call together with the returned order or the thrown error; on an
error the reads have happened but no write. -/
def transitionOrderStatus (db : DB) (orderId pharmacyId : Nat) (event : OrderEvent)
    (changedBy : Option Nat) : DB × Except String OrderRow :=
  match getOrderById db orderId pharmacyId with
  | none => (db, .error "Order not found")
  | some (order, _) =>
      match getNextStatus order.status event with
      | none => (db, .error (invalidTransitionMsg event order.status))
      | some nextStatus =>
          let db1 := { db with orders := db.orders.map fun o =>
            if o.id = orderId ∧ o.pharmacyId = pharmacyId then
              applyTransitionUpdate event nextStatus o
            else o }
          (logStatusChange db1 orderId (some order.status) nextStatus changedBy
              (transitionReason event),
            .ok (applyTransitionUpdate event nextStatus order))

def freshOrderId (db : DB) : Nat :=
  (db.orders.map fun o => o.id).foldr max 0 + 1

/-- `createOrder` from orderService.ts.  The generated order number and the
clock are passed in (the source draws them from a generator and `NOW()`). -/
def createOrder (db : DB) (pharmacyId customerId : Nat) (rawMessage : Str)
    (parsedItems : Option (List ParsedItem)) (requiresRx : Bool)
    (orderNumber : Str) (now : Nat) : DB × OrderRow :=
  let row : OrderRow :=
    { id := freshOrderId db, orderNumber := orderNumber, pharmacyId := pharmacyId
      customerId := customerId, status := .pending, rawMessage := rawMessage
      parsedItems := parsedItems, requiresRx := requiresRx, paymentMethod := none
      totalAmount := none, deliveryAddress := none, createdAt := now }
  let db1 := { db with orders := db.orders ++ [row] }
  (logStatusChange db1 row.id none .pending none none, row)

/-- `ORDER BY created_at DESC LIMIT 1` over a filtered set: the row with the
greatest `created_at` among those satisfying the predicate. -/
def newestFold : List OrderRow → Option OrderRow → Option OrderRow
  | [], acc => acc
  | o :: rest, none => newestFold rest (some o)
  | o :: rest, some b =>
      newestFold rest (some (if b.createdAt < o.createdAt then o else b))

def selectNewest (p : OrderRow → Bool) (l : List OrderRow) : Option OrderRow :=
  newestFold (l.filter p) none

/-- The WHERE clause of `findActiveOrder`. -/
def activePred (customerId pharmacyId : Nat) (o : OrderRow) : Bool :=
  decide (o.customerId = customerId ∧ o.pharmacyId = pharmacyId ∧
    o.status ≠ .completed ∧ o.status ≠ .cancelled)

/-- `findActiveOrder` from orderService.ts. -/
def findActiveOrder (db : DB) (customerId pharmacyId : Nat) : Option OrderRow :=
  selectNewest (activePred customerId pharmacyId) db.orders

/-- The WHERE clause of `findPendingRxOrder`. -/
def pendingRxPred (customerId pharmacyId : Nat) (o : OrderRow) : Bool :=
  decide (o.customerId = customerId ∧ o.pharmacyId = pharmacyId ∧
    o.status = .awaiting_rx)

/-- `findPendingRxOrder` from orderService.ts. -/
def findPendingRxOrder (db : DB) (customerId pharmacyId : Nat) : Option OrderRow :=
  selectNewest (pendingRxPred customerId pharmacyId) db.orders

/-! # Chat webhook / intent resolver (webhookController.ts) -/

/-- `NumMedia`, media URL, sender and recipient of a Twilio webhook call.  The
phone-number resolution of sender → customer and recipient → pharmacy is
abstracted to numeric identities. -/
structure InboundMsg where
  fromCustomerId : Nat
  toPharmacyId : Nat
  body : Str
  numMedia : Nat
  mediaUrl : Option String
  sid : String
  profileName : Option Str
deriving DecidableEq, Repr

/-- `findOrCreateCustomer` from customerService.ts (phone identity abstracted
to the numeric id; a supplied profile name fills a missing customer name). -/
def findOrCreateCustomer (db : DB) (customerId : Nat) (profileName : Option Str) :
    DB × CustomerRow :=
  match db.customers.find? fun c => decide (c.id = customerId) with
  | some c =>
      match profileName, c.name with
      | some n, none =>
          let c2 := { c with name := some n }
          ({ db with customers := db.customers.map fun x =>
              if x.id = c.id then c2 else x }, c2)
      | _, _ => (db, c)
  | none =>
      let c : CustomerRow := { id := customerId, phone := "", name := profileName, address := none }
      ({ db with customers := db.customers ++ [c] }, c)

def insertMessage (db : DB) (sid : String) (dir : Direction) (body : Str) : DB :=
  { db with messages := db.messages ++ [⟨sid, none, dir, body⟩] }

/-- `UPDATE messages SET order_id = $1 WHERE twilio_sid = $2`. -/
def attributeMessage (db : DB) (sid : String) (orderId : Nat) : DB :=
  { db with messages := db.messages.map fun msg =>
      if msg.sid = sid then { msg with orderId := some orderId } else msg }

def insertPrescription (db : DB) (orderId customerId : Nat) (mediaUrl : Option String) : DB :=
  { db with prescriptions := db.prescriptions ++ [⟨orderId, customerId, mediaUrl⟩] }

/-- `UPDATE orders SET delivery_address = $1 WHERE id = $2`. -/
def setOrderDeliveryAddress (db : DB) (orderId : Nat) (addr : Str) : DB :=
  { db with orders := db.orders.map fun o =>
      if o.id = orderId then { o with deliveryAddress := some addr } else o }

/-- `UPDATE customers SET address = $1 WHERE id = $2`. -/
def setCustomerAddress (db : DB) (customerId : Nat) (addr : Str) : DB :=
  { db with customers := db.customers.map fun c =>
      if c.id = customerId then { c with address := some addr } else c }

/-- Append an outbound message row (`sendWhatsAppMessage` in sender.ts logs
every send into the messages table). -/
def sendWhatsAppMessage (db : DB) (sid : String) (orderId : Option Nat) (body : Str) : DB :=
  { db with messages := db.messages ++ [⟨sid, orderId, .outbound, body⟩] }

/-- The affirmation token list of the saved-address branch. -/
def affirmTokens : List Str :=
  ["yes", "y", "ok", "okay", "confirm", "same", "same address"].map String.toList

/-- The payment-acknowledgement token list. -/
def payTokens : List Str :=
  ["paid", "payment done", "done", "completed"].map String.toList

/-- `\d{6}`: six consecutive digits somewhere in the string. -/
def hasRun6Digits : Str → Bool
  | [] => false
  | c :: rest =>
      (((c :: rest).take 6).length = 6 && ((c :: rest).take 6).all isDigitC)
        || hasRun6Digits rest

/-- A comma occurs before any newline (the `.` of `\d+.*,` does not cross
line breaks). -/
def commaBeforeNL : Str → Bool
  | [] => false
  | ',' :: _ => true
  | '\n' :: _ => false
  | _ :: rest => commaBeforeNL rest

/-- `\d+.*,`: a digit with a comma later on the same line. -/
def digitThenComma : Str → Bool
  | [] => false
  | c :: rest => (isDigitC c && commaBeforeNL rest) || digitThenComma rest

/-- The fixed word alternatives of the address heuristic regex. -/
def addrWords : List Str :=
  ["flat", "house", "street", "road", "sector", "block", "near"].map String.toList

/-- `/\d{6}|\d+.*,|flat|house|street|road|sector|block|near/i.test(Body)`. -/
def looksLikeAddress (b : Str) : Bool :=
  hasRun6Digits b || digitThenComma b || addrWords.any fun w => isSubLC w (lowerLC b)

/-- `formatItemsForDisplay` from parser.ts. -/
def formatItemsForDisplay (items : List ParsedItem) : Str :=
  if items = [] then "No items found".toList
  else
    List.intercalate "\n".toList <| (items.enum.map fun iv =>
      (toString (iv.1 + 1)).toList ++ ". ".toList ++ iv.2.name ++
        (if 1 < iv.2.quantity then " x ".toList ++ (toString iv.2.quantity).toList else []))

def rxReceivedReply (n : Str) : Str :=
  "Thank you! We received your prescription for Order #".toList ++ n ++
    ".\n\nOur pharmacist will review it shortly.".toList

def savedAddressReply (n : Str) : Str :=
  "Great! We\x27ll deliver Order #".toList ++ n ++
    " to your saved address.\n\nBooking delivery now...".toList

def addressSavedReply (n : Str) : Str :=
  "Thank you! Your delivery address has been saved for Order #".toList ++ n ++
    ".\n\nBooking delivery now...".toList

def paymentAckReply (n : Str) : Str :=
  "Thank you for your payment confirmation for Order #".toList ++ n ++
    ".\n\nThe pharmacist will verify and confirm shortly.".toList

def activeOrderReply (n : Str) : Str :=
  "Message received for Order #".toList ++ n ++
    ".\n\nThe pharmacist will respond shortly.".toList

def errorApologyReply : Str :=
  "Sorry, we encountered an error processing your message. Please try again.".toList

/-- Webhook branch 1: prescription media for an order awaiting one.  The
`.error` arm is the controller's catch-all (the transition throw aborts the
remaining statements and answers with the apology). -/
def tryRxUploadBranch (db : DB) (m : InboundMsg) (customer : CustomerRow)
    (pharmacy : PharmacyRow) : Option (DB × Str) :=
  if 0 < m.numMedia then
    match findPendingRxOrder db customer.id pharmacy.id with
    | some pendingRxOrder =>
        match transitionOrderStatus
            (insertPrescription db pendingRxOrder.id customer.id m.mediaUrl)
            pendingRxOrder.id pharmacy.id .RX_UPLOADED none with
        | (db2, .ok _) =>
            some (attributeMessage db2 m.sid pendingRxOrder.id,
              rxReceivedReply pendingRxOrder.orderNumber)
        | (db2, .error _) => some (db2, errorApologyReply)
    | none => none
  else none

/-- The WHERE clause of the saved-address and new-address order lookups. -/
def awaitingAddrPred (customerId pharmacyId : Nat) (o : OrderRow) : Bool :=
  decide (o.customerId = customerId ∧ o.pharmacyId = pharmacyId ∧
    (o.status = .ready_for_pickup ∨ o.status = .payment_confirmed ∨ o.status = .confirmed) ∧
    o.deliveryAddress = none)

def findOrderNeedingAddress (db : DB) (customerId pharmacyId : Nat) : Option OrderRow :=
  selectNewest (awaitingAddrPred customerId pharmacyId) db.orders

/-- The saved-address lookup: additionally requires the customer to hold a
non-empty previous address (the join condition `c.address IS NOT NULL AND
c.address != ''`). -/
def findOrderWithPrevAddress (db : DB) (customerId pharmacyId : Nat) :
    Option (OrderRow × Str) :=
  match db.customers.find? fun c => decide (c.id = customerId) with
  | none => none
  | some c =>
      match c.address with
      | none => none
      | some a =>
          if a = [] then none
          else (findOrderNeedingAddress db customerId pharmacyId).map fun o => (o, a)

/-- Webhook branch 2: affirmation token reuses the stored address. -/
def tryPrevAddressBranch (db : DB) (m : InboundMsg) (customer : CustomerRow)
    (pharmacy : PharmacyRow) : Option (DB × Str) :=
  if trimLC (lowerLC m.body) ∈ affirmTokens then
    match findOrderWithPrevAddress db customer.id pharmacy.id with
    | some op =>
        some (attributeMessage (setOrderDeliveryAddress db op.1.id op.2) m.sid op.1.id,
          savedAddressReply op.1.orderNumber)
    | none => none
  else none

/-- Webhook branch 3: address-shaped body stored as the order's address and as
the customer's last-used address. -/
def tryNewAddressBranch (db : DB) (m : InboundMsg) (customer : CustomerRow)
    (pharmacy : PharmacyRow) : Option (DB × Str) :=
  if looksLikeAddress m.body ∧ 20 < m.body.length then
    match findOrderNeedingAddress db customer.id pharmacy.id with
    | some o =>
        some (attributeMessage
            (setCustomerAddress (setOrderDeliveryAddress db o.id (trimLC m.body))
              customer.id (trimLC m.body))
            m.sid o.id,
          addressSavedReply o.orderNumber)
    | none => none
  else none

/-- The WHERE clause of the payment-acknowledgement order lookup. -/
def awaitingPaymentPred (customerId pharmacyId : Nat) (o : OrderRow) : Bool :=
  decide (o.customerId = customerId ∧ o.pharmacyId = pharmacyId ∧
    o.status = .awaiting_payment)

def findAwaitingPaymentOrder (db : DB) (customerId pharmacyId : Nat) : Option OrderRow :=
  selectNewest (awaitingPaymentPred customerId pharmacyId) db.orders

/-- Webhook branch 4: payment-acknowledgement token — attribute and thank,
no transition. -/
def tryPaymentAckBranch (db : DB) (m : InboundMsg) (customer : CustomerRow)
    (pharmacy : PharmacyRow) : Option (DB × Str) :=
  if trimLC (lowerLC m.body) ∈ payTokens then
    match findAwaitingPaymentOrder db customer.id pharmacy.id with
    | some o => some (attributeMessage db m.sid o.id, paymentAckReply o.orderNumber)
    | none => none
  else none

/-- Webhook branch 5: append to the conversation of an active order. -/
def tryActiveOrderBranch (db : DB) (m : InboundMsg) (customer : CustomerRow)
    (pharmacy : PharmacyRow) : Option (DB × Str) :=
  match findActiveOrder db customer.id pharmacy.id with
  | some o => some (attributeMessage db m.sid o.id, activeOrderReply o.orderNumber)
  | none => none

/-- `handleIncomingMessage` from webhookController.ts: pharmacy resolution,
customer find-or-create, inbound message audit insert, then the six intent
branches in priority order.  `newOrderNumber` and `now` stand for the order
number generator and the clock of the final create-order branch. -/
def handleIncomingMessage (db : DB) (m : InboundMsg) (newOrderNumber : Str) (now : Nat) :
    DB × Str :=
  match db.pharmacies.find? fun p => decide (p.id = m.toPharmacyId) with
  | none => (db, "Sorry, this pharmacy is not registered. Please contact support.".toList)
  | some pharmacy =>
      let dc := findOrCreateCustomer db m.fromCustomerId m.profileName
      let customer := dc.2
      let db0 := insertMessage dc.1 m.sid .inbound m.body
      match tryRxUploadBranch db0 m customer pharmacy with
      | some r => r
      | none =>
      match tryPrevAddressBranch db0 m customer pharmacy with
      | some r => r
      | none =>
      match tryNewAddressBranch db0 m customer pharmacy with
      | some r => r
      | none =>
      match tryPaymentAckBranch db0 m customer pharmacy with
      | some r => r
      | none =>
      match tryActiveOrderBranch db0 m customer pharmacy with
      | some r => r
      | none =>
        let pr := parseOrderMessage m.body
        let co := createOrder db0 pharmacy.id customer.id m.body (some pr.items)
          pr.requiresRx newOrderNumber now
        let db1 := attributeMessage co.1 m.sid co.2.id
        let greeting :=
          match m.profileName with
          | some n => "Hi ".toList ++ n ++ "!".toList
          | none => "Hi!".toList
        let ack := greeting ++ " We received your order.\n\n".toList ++
          formatItemsForDisplay pr.items ++ "\n\nOrder #".toList ++ newOrderNumber ++
          (if pr.requiresRx then
            "\n\n*Note:* Some items may require a prescription. We will confirm shortly.".toList
          else "\n\nWe will review and confirm shortly.".toList)
        (db1, ack)

/-! # Delivery orchestrator (deliveryService.ts) -/

def getDeliveryById (db : DB) (deliveryId : Nat) : Option DeliveryRow :=
  db.deliveries.find? fun d => decide (d.id = deliveryId)

def getDeliveryByOrderId (db : DB) (orderId : Nat) : Option DeliveryRow :=
  db.deliveries.find? fun d => decide (d.orderId = orderId)

/-- `UPDATE deliveries SET status = $1 WHERE id = $2`. -/
def updateDeliveryStatus (db : DB) (deliveryId : Nat) (status : DeliveryStatus) : DB :=
  { db with deliveries := db.deliveries.map fun d =>
      if d.id = deliveryId then { d with status := status } else d }

def freshDeliveryId (db : DB) : Nat :=
  (db.deliveries.map fun d => d.id).foldr max 0 + 1

/-- `createDelivery` from deliveryService.ts (a fresh `pending` row; the
source also back-links `orders.delivery_id`, which no claim reads). -/
def createDelivery (db : DB) (orderId pharmacyId customerId : Nat)
    (pickupAddress : Str) (deliveryAddress : Str) : DB × DeliveryRow :=
  let d : DeliveryRow :=
    { id := freshDeliveryId db, orderId := orderId, pharmacyId := pharmacyId
      customerId := customerId, borzoOrderId := none, borzoOrderNumber := none
      trackingUrl := none, status := .pending, pickupAddress := pickupAddress
      deliveryAddress := deliveryAddress, finalPrice := none
      courierName := none, courierPhone := none }
  ({ db with deliveries := db.deliveries ++ [d] }, d)

/-- A successful `borzoClient.createOrder` response. -/
structure BorzoCreateOk where
  orderId : String
  orderNumber : String
  trackingUrl : String
  price : ℚ
deriving DecidableEq, Repr

/-- `bookDelivery` from deliveryService.ts.  `borzoCreate` carries the courier
collaborator's response for this call; on a thrown error the delivery is set
`failed` and the error is rethrown. -/
def bookDelivery (borzoEnabled : Bool) (borzoCreate : Except String BorzoCreateOk)
    (db : DB) (deliveryId : Nat) : DB × Except String (String × ℚ) :=
  match getDeliveryById db deliveryId with
  | none => (db, .error "Delivery not found")
  | some _ =>
      if !borzoEnabled then (db, .error "Borzo delivery is not enabled")
      else
        match borzoCreate with
        | .ok result =>
            let db2 := { db with deliveries := db.deliveries.map fun d =>
              if d.id = deliveryId then
                { d with borzoOrderId := some result.orderId
                         borzoOrderNumber := some result.orderNumber
                         trackingUrl := some result.trackingUrl
                         finalPrice := some result.price
                         status := .booked }
              else d }
            (db2, .ok (result.trackingUrl, result.price))
        | .error e => (updateDeliveryStatus db deliveryId .failed, .error e)

/-- `cancelDelivery` from deliveryService.ts.  `borzoCancel` carries the
provider response when the provider-side cancel is attempted; the middle
component of the result records whether that call was made.  A provider
failure is logged only, the local cancellation continues. -/
def cancelDelivery (borzoCancel : Except String Unit) (db : DB) (deliveryId : Nat) :
    DB × Bool × Except String Unit :=
  match getDeliveryById db deliveryId with
  | none => (db, false, .error "Delivery not found")
  | some delivery =>
      let providerCalled := delivery.borzoOrderId.isSome && decide (delivery.status = .booked)
      -- on `providerCalled`, `borzoCancel` is evaluated; its failure is only logged
      let _ := if providerCalled then some borzoCancel else none
      (updateDeliveryStatus db deliveryId .cancelled, providerCalled, .ok ())

def deliveryBookedTemplate (n : Str) (trackingUrl : String) : Str :=
  "Delivery booked for Order #".toList ++ n ++ "!\n\nTrack your order here:\n".toList ++
    trackingUrl.toList ++ "\n\nYou\x27ll receive updates as your order is on its way.".toList

def orderReadyTemplate (n : Str) : Str :=
  "Order #".toList ++ n ++
    " is ready!\n\nPlease coordinate with the pharmacy for pickup or delivery.".toList

def orderReadyDeliveryPendingTemplate (n : Str) : Str :=
  "Order #".toList ++ n ++
    " is ready!\n\nWe\x27re arranging delivery for you. You\x27ll receive tracking details shortly.".toList

def courierAssignedTemplate (n : Str) (courierName courierPhone : String) : Str :=
  "Order #".toList ++ n ++ " update:\n\nCourier assigned!\nName: ".toList ++
    courierName.toList ++ "\nPhone: ".toList ++ courierPhone.toList ++
    "\n\nYour order is being picked up.".toList

def orderDeliveredTemplate (n : Str) : Str :=
  "Order #".toList ++ n ++
    " has been delivered!\n\nThank you for ordering with us. Hope to serve you again soon!".toList

/-- `bookDeliveryAndNotify` from deliveryService.ts.  Result components: state
after the call, `success`, and the error string of a failure. -/
def bookDeliveryAndNotify (borzoEnabled : Bool) (borzoCreate : Except String BorzoCreateOk)
    (db : DB) (orderId pharmacyId : Nat) : DB × Bool × Option String :=
  match findOrderRow db orderId pharmacyId with
  | none => (db, false, some "Order not found")
  | some o =>
      match db.customers.find? fun c => decide (c.id = o.customerId) with
      | none => (db, false, some "Order not found")
      | some _ =>
          match db.pharmacies.find? fun p => decide (p.id = pharmacyId) with
          | none => (db, false, some "Order not found")
          | some p =>
              match o.deliveryAddress with
              | none => (db, false,
                  some "Delivery address not set. Please request address from customer.")
              | some addr =>
                  -- `p.pickup_address || p.address`
                  match (match p.pickupAddress with
                         | some pa => some pa
                         | none => p.address) with
                  | none => (db, false, some "Pharmacy pickup address not configured")
                  | some pickupAddr =>
                      if !borzoEnabled then (db, false, some "Delivery service not enabled")
                      else
                        let dd : DB × DeliveryRow :=
                          match getDeliveryByOrderId db orderId with
                          | some d => (db, d)
                          | none => createDelivery db orderId pharmacyId o.customerId
                              pickupAddr addr
                        match bookDelivery borzoEnabled borzoCreate dd.1 dd.2.id with
                        | (db2, .ok tp) =>
                            (sendWhatsAppMessage db2 "out" (some orderId)
                              (deliveryBookedTemplate o.orderNumber tp.1), true, none)
                        | (db2, .error e) => (db2, false, some e)

/-! # Dashboard transition API, `ready_for_pickup` path (orderController.ts) -/

/-- `updateOrderStatus` from orderController.ts for target status
`ready_for_pickup` (event `MARK_READY`), including the auto-booking of the
delivery and the fallback customer notification. -/
def updateOrderStatusReady (borzoEnabled : Bool) (borzoCreate : Except String BorzoCreateOk)
    (db : DB) (orderId pharmacyId userId : Nat) (notifyCustomer : Bool) :
    DB × Except String Unit :=
  match getOrderById db orderId pharmacyId with
  | none => (db, .error "Order not found")
  | some (order, _) =>
      match transitionOrderStatus db orderId pharmacyId .MARK_READY (some userId) with
      | (db1, .error e) => (db1, .error e)
      | (db1, .ok _) =>
          if notifyCustomer then
            if borzoEnabled then
              match bookDeliveryAndNotify borzoEnabled borzoCreate db1 orderId pharmacyId with
              | (db2, true, _) => (db2, .ok ())
                -- tracking link already sent by the delivery service, default skipped
              | (db2, false, _) =>
                  let msg :=
                    match order.deliveryAddress with
                    | some _ => orderReadyDeliveryPendingTemplate order.orderNumber
                    | none => orderReadyTemplate order.orderNumber
                  (sendWhatsAppMessage db2 "out" (some orderId) msg, .ok ())
            else
              (sendWhatsAppMessage db1 "out" (some orderId)
                (orderReadyTemplate order.orderNumber), .ok ())
          else (db1, .ok ())

/-! # Courier status webhook (deliveryController.ts, borzoWebhook) -/

/-- The `statusMap` table of borzoWebhook. -/
def borzoStatusMap (s : String) : Option DeliveryStatus :=
  if s = "available" then some .booked
  else if s = "active" then some .courier_assigned
  else if s = "performer_found" then some .courier_assigned
  else if s = "performer_on_the_way" then some .in_transit
  else if s = "delivering" then some .in_transit
  else if s = "completed" then some .delivered
  else if s = "cancelled" then some .cancelled
  else if s = "failed" then some .failed
  else none

/-- The `SELECT o.order_number, c.phone … WHERE o.id = $1` join used for the
webhook notifications. -/
def orderDetailsById (db : DB) (orderId : Nat) : Option (OrderRow × CustomerRow) :=
  match db.orders.find? fun o => decide (o.id = orderId) with
  | none => none
  | some o => (db.customers.find? fun c => decide (c.id = o.customerId)).map fun c => (o, c)

/-- `borzoWebhook` from deliveryController.ts: map the provider status,
update the delivery, notify on `courier_assigned` and `delivered`, and on
`delivered` write `orders.status = 'completed'` directly. -/
def borzoWebhook (db : DB) (borzoOrderId : String) (newStatus : String)
    (courier : Option (String × String)) : DB :=
  match db.deliveries.find? fun d => decide (d.borzoOrderId = some borzoOrderId) with
  | none => db
  | some delivery =>
      match borzoStatusMap newStatus with
      | none => db
      | some newDeliveryStatus =>
          let db1 := updateDeliveryStatus db delivery.id newDeliveryStatus
          let db2 :=
            match courier with
            | some cnp =>
                if newDeliveryStatus = .courier_assigned then
                  let dbc := { db1 with deliveries := db1.deliveries.map fun d =>
                    if d.id = delivery.id then
                      { d with courierName := some cnp.1, courierPhone := some cnp.2 }
                    else d }
                  match orderDetailsById dbc delivery.orderId with
                  | some oc => sendWhatsAppMessage dbc "out" (some delivery.orderId)
                      (courierAssignedTemplate oc.1.orderNumber cnp.1 cnp.2)
                  | none => dbc
                else db1
            | none => db1
          if newDeliveryStatus = .delivered then
            let db3 :=
              match orderDetailsById db2 delivery.orderId with
              | some oc => sendWhatsAppMessage db2 "out" (some delivery.orderId)
                  (orderDeliveredTemplate oc.1.orderNumber)
              | none => db2
            -- UPDATE orders SET status = 'completed' WHERE id = $1
            { db3 with orders := db3.orders.map fun o =>
                if o.id = delivery.orderId then { o with status := .completed } else o }
          else db2

/-! # Concurrency model of the webhook handler (claim C9)

Every `await`ed database query of `handleIncomingMessage` is a scheduling
point of the Node event loop.  For a plain-text message from a customer with
no qualifying order, the order-table footprint of one handler invocation is
exactly: the `findActiveOrder` SELECT, then the `createOrder` INSERT.  A
handler instance is therefore the two-step process below, and a run is an
interleaving of two instances picked by a boolean schedule.  The source
contains no per-customer mutual exclusion between the two steps. -/

inductive RacePhase
  | start
  | looked (foundActive : Bool)
  | finished
deriving DecidableEq, Repr

/-- One scheduling step of one handler instance. -/
def raceStep (customerId pharmacyId : Nat) (orderNumber : Str) (now : Nat)
    (db : DB) (ph : RacePhase) : DB × RacePhase :=
  match ph with
  | .start => (db, .looked (findActiveOrder db customerId pharmacyId).isSome)
  | .looked found =>
      if found then (db, .finished)
      else ((createOrder db pharmacyId customerId [] (some []) false orderNumber now).1,
        .finished)
  | .finished => (db, .finished)

/-- Run two handler instances under a schedule (`true` steps instance 1). -/
def runRace (customerId pharmacyId : Nat) :
    List Bool → DB × RacePhase × RacePhase → DB × RacePhase × RacePhase
  | [], s => s
  | b :: rest, (db, p1, p2) =>
      if b then
        let r := raceStep customerId pharmacyId "A1".toList 10 db p1
        runRace customerId pharmacyId rest (r.1, r.2, p2)
      else
        let r := raceStep customerId pharmacyId "B2".toList 11 db p2
        runRace customerId pharmacyId rest (r.1, p1, r.2)

/-! # Support definitions for the claim statements -/

/-- The quantity-sanity failure of one pattern on one cleaned line: the pattern
does not match at all, or its digit group is 0 or above 100. -/
def insaneOrNone (p : QtyPattern) (l : Str) : Bool :=
  match findMatch p l with
  | none => true
  | some ilq => decide (ilq.2.2 = 0 ∨ 100 < ilq.2.2)

def emptyDB : DB := ⟨[], [], [], [], [], [], []⟩

/-- Order-row builder for concrete examples. -/
def mkOrder (id : Nat) (status : OrderStatus) (createdAt : Nat)
    (pharmacyId customerId : Nat) (deliveryAddress : Option Str) : OrderRow :=
  { id := id, orderNumber := "ORD".toList ++ (toString id).toList
    pharmacyId := pharmacyId, customerId := customerId, status := status
    rawMessage := [], parsedItems := none, requiresRx := false
    paymentMethod := none, totalAmount := none
    deliveryAddress := deliveryAddress, createdAt := createdAt }

def mkPharmacy (id : Nat) (pickupAddress : Option Str) : PharmacyRow :=
  { id := id, name := "Pharm", phone := "100", address := some "Main road 1".toList
    pickupAddress := pickupAddress, contactName := none, upiId := none }

/- Concrete state for C2: a completed order that admits no event. -/

def c2order : OrderRow := mkOrder 1 .completed 0 2 5 none

def c2cust : CustomerRow := ⟨5, "phone5", none, none⟩

def c2db : DB := { emptyDB with orders := [c2order], customers := [c2cust] }

/- Concrete state for C3: a cancelled order whose delivery reaches `delivered`
through the courier webhook. -/

def c3order : OrderRow := mkOrder 10 .cancelled 0 2 5 (some "Addr".toList)

def c3delivery : DeliveryRow :=
  { id := 1, orderId := 10, pharmacyId := 2, customerId := 5
    borzoOrderId := some "B7", borzoOrderNumber := none, trackingUrl := none
    status := .in_transit, pickupAddress := [], deliveryAddress := []
    finalPrice := none, courierName := none, courierPhone := none }

def c3db : DB :=
  { emptyDB with orders := [c3order], deliveries := [c3delivery]
                 customers := [⟨5, "phone5", none, none⟩] }

/- Concrete state for the C3 witness: an `awaiting_rx` order receiving its
prescription through the chat webhook. -/

def c3worder : OrderRow := mkOrder 4 .awaiting_rx 1 2 5 none

def c3wdb : DB :=
  { emptyDB with orders := [c3worder], customers := [⟨5, "phone5", none, none⟩]
                 pharmacies := [mkPharmacy 2 none] }

def c3wmsg : InboundMsg :=
  { fromCustomerId := 5, toPharmacyId := 2, body := [], numMedia := 1
    mediaUrl := some "media7", sid := "SID3", profileName := none }

/- Concrete state for C5: the customer has both an `awaiting_rx` and an
`awaiting_payment` order, and sends "paid" with a photo attached. -/

def c5orderRx : OrderRow := mkOrder 1 .awaiting_rx 1 2 5 none

def c5orderPay : OrderRow := mkOrder 2 .awaiting_payment 2 2 5 none

def c5db : DB :=
  { emptyDB with orders := [c5orderRx, c5orderPay]
                 customers := [⟨5, "phone5", none, none⟩]
                 pharmacies := [mkPharmacy 2 none] }

def c5msg : InboundMsg :=
  { fromCustomerId := 5, toPharmacyId := 2, body := "paid".toList, numMedia := 1
    mediaUrl := some "media9", sid := "SID5", profileName := none }

/- Concrete state for the C5 witness: only the `awaiting_payment` order, and a
plain "paid" text without media. -/

def c5wdb : DB :=
  { emptyDB with orders := [c5orderPay]
                 customers := [⟨5, "phone5", none, none⟩]
                 pharmacies := [mkPharmacy 2 none] }

def c5wmsg : InboundMsg :=
  { fromCustomerId := 5, toPharmacyId := 2, body := "paid".toList, numMedia := 0
    mediaUrl := none, sid := "SID6", profileName := none }

/- Concrete state for C6: a `courier_assigned` delivery holding a provider
order id, and (for the witness) a `booked` one whose provider cancel fails. -/

def c6delivery : DeliveryRow :=
  { id := 1, orderId := 10, pharmacyId := 2, customerId := 5
    borzoOrderId := some "B1", borzoOrderNumber := none, trackingUrl := none
    status := .courier_assigned, pickupAddress := [], deliveryAddress := []
    finalPrice := none, courierName := none, courierPhone := none }

def c6db : DB := { emptyDB with deliveries := [c6delivery] }

def c6wdelivery : DeliveryRow := { c6delivery with id := 3, status := .booked }

def c6wdb : DB := { emptyDB with deliveries := [c6wdelivery] }

/- Concrete state for the C4 witness: a confirmed order with a delivery
address, a configured pharmacy, and no delivery row yet. -/

def c4order : OrderRow := mkOrder 10 .confirmed 0 2 5 (some "Flat 1, X road 560001".toList)

def c4db : DB :=
  { emptyDB with orders := [c4order]
                 customers := [⟨5, "phone5", none, none⟩]
                 pharmacies := [mkPharmacy 2 (some "Shop 3".toList)] }

/- Concrete state for the C10 witness: several qualifying orders per lookup. -/

def c10orders : List OrderRow :=
  [ mkOrder 1 .pending 1 2 5 none,
    mkOrder 2 .awaiting_rx 2 2 5 none,
    mkOrder 3 .awaiting_rx 3 2 5 none,
    mkOrder 4 .confirmed 4 2 5 none,
    mkOrder 5 .payment_confirmed 5 2 5 none,
    mkOrder 6 .awaiting_payment 6 2 5 none,
    mkOrder 7 .awaiting_payment 7 2 5 none ]

def c10db : DB :=
  { emptyDB with orders := c10orders
                 customers := [⟨5, "phone5", none, some "12 A street, 560001".toList⟩] }

/-- The spec's transition table from section 4.2, transcribed from the spec text
(not from the code), for the refinement claim C1. -/
def specNextStatus (s : OrderStatus) (e : OrderEvent) : Option OrderStatus :=
  match s, e with
  | .pending, .RX_REQUIRED => some .awaiting_rx
  | .pending, .START_REVIEW => some .under_review
  | .pending, .CANCEL _ => some .cancelled
  | .awaiting_rx, .RX_UPLOADED => some .rx_received
  | .awaiting_rx, .CANCEL _ => some .cancelled
  | .rx_received, .START_REVIEW => some .under_review
  | .rx_received, .CANCEL _ => some .cancelled
  | .under_review, .CONFIRM_AVAILABILITY _ pm =>
      some (match pm with | .upi => .awaiting_payment | .cod => .confirmed)
  | .under_review, .ITEMS_UNAVAILABLE _ => some .cancelled
  | .under_review, .RX_REQUIRED => some .awaiting_rx
  | .under_review, .CANCEL _ => some .cancelled
  | .confirmed, .MARK_READY => some .ready_for_pickup
  | .confirmed, .CANCEL _ => some .cancelled
  | .awaiting_payment, .PAYMENT_RECEIVED => some .payment_confirmed
  | .awaiting_payment, .CANCEL _ => some .cancelled
  | .payment_confirmed, .MARK_READY => some .ready_for_pickup
  | .payment_confirmed, .CANCEL _ => some .cancelled
  | .ready_for_pickup, .MARK_COMPLETED => some .completed
  | .ready_for_pickup, .CANCEL _ => some .cancelled
  | _, _ => none

/-- C1: for every order status `s` and event `e`, `getNextStatus s e` returns exactly
the destination given by the spec's transition table: the listed next status for
listed `(s, e.type)` pairs, with `CONFIRM_AVAILABILITY` from `under_review` yielding
`awaiting_payment` for `upi` and `confirmed` for `cod` regardless of the amount, and
`none` (rejection) for unlisted pairs; in particular `completed` and `cancelled`
have no outgoing transitions for any event. -/
theorem getNextStatus_matches_spec_table :
    (∀ s e, getNextStatus s e = specNextStatus s e) ∧
    (∀ e, getNextStatus .completed e = none) ∧
    (∀ e, getNextStatus .cancelled e = none) := by
  refine ⟨?_, ?_, ?_⟩
  · intro s e
    cases s <;> cases e <;> first
      | rfl
      | (rename_i amt pm; cases pm <;> rfl)
  · intro e; cases e <;> rfl
  · intro e; cases e <;> rfl

/-! # Helper lemmas -/

theorem firstSane_eq_none_of_insane :
    ∀ (ps : List QtyPattern) (l : Str),
      (∀ p ∈ ps, insaneOrNone p l = true) → firstSane ps l = none := by
  intro ps
  induction ps with
  | nil => intro l _; rfl
  | cons p ps ih =>
      intro l h
      have hp := h p (List.mem_cons_self p ps)
      have hrest : ∀ q ∈ ps, insaneOrNone q l = true := fun q hq =>
        h q (List.mem_cons_of_mem p hq)
      unfold insaneOrNone at hp
      cases hm : findMatch p l with
      | none => simp only [firstSane, hm]; exact ih l hrest
      | some ilq =>
          obtain ⟨i, len, q⟩ := ilq
          rw [hm] at hp
          have hq : q = 0 ∨ 100 < q := of_decide_eq_true hp
          simp only [firstSane, hm]
          rw [if_neg (by omega)]
          exact ih l hrest

/-! # Claim theorems -/

/-- C8: `parseOrderMessage "Paracetamol x10, Vitamin C x2"` returns exactly the two
items (Paracetamol, 10) and (Vitamin C, 2) in that order with requiresRx false, and
`parseOrderMessage "Azithromycin 500mg x 2 strips"` returns one item of quantity 2
whose name retains "Azithromycin 500mg", with requiresRx true by keyword match. -/
theorem parseOrderMessage_examples :
    (parseOrderMessage "Paracetamol x10, Vitamin C x2".toList =
      { items := [⟨"Paracetamol".toList, 10, "Paracetamol x10".toList⟩,
                  ⟨"Vitamin C".toList, 2, "Vitamin C x2".toList⟩],
        requiresRx := false }) ∧
    ((parseOrderMessage "Azithromycin 500mg x 2 strips".toList).items =
      [⟨"Azithromycin 500mg  strips".toList, 2,
        "Azithromycin 500mg x 2 strips".toList⟩]) ∧
    (isSubLC "Azithromycin 500mg".toList "Azithromycin 500mg  strips".toList = true) ∧
    ((parseOrderMessage "Azithromycin 500mg x 2 strips".toList).requiresRx = true) := by
  refine ⟨by decide, by decide, by decide, by decide⟩

/-- C9: the webhook handler has no per-(customer, pharmacy) serialisation between
its `findActiveOrder` read and its `createOrder` insert, so the interleaving in
which both instances run their lookup before either insert leaves two open orders
for the same customer and pharmacy; the serialised schedule leaves one. -/
theorem webhook_race_two_creates :
    ((runRace 7 3 [true, false, true, false] (emptyDB, .start, .start)).1.orders.length = 2) ∧
    ((runRace 7 3 [true, false, true, false] (emptyDB, .start, .start)).2 =
      (.finished, .finished)) ∧
    ((runRace 7 3 [true, false, true, false] (emptyDB, .start, .start)).1.orders.all
      (activePred 7 3) = true) ∧
    ((runRace 7 3 [true, true, false, false] (emptyDB, .start, .start)).1.orders.length = 1) ∧
    ((runRace 7 3 [true, true, false, false] (emptyDB, .start, .start)).2 =
      (.finished, .finished)) := by
  refine ⟨by decide, by decide, by decide, by decide, by decide⟩

/-- C7 counterexample: on the line "0" every quantity pattern either fails to match
or matches the insane quantity 0, yet the extractor does not return the line as a
single item with quantity 1 — it discards the line entirely (`none`), because the
line is shorter than two characters. -/
theorem parseLineItem_noise_counterexample :
    (∀ p ∈ quantityPatterns, insaneOrNone p (cleanLine "0".toList) = true) ∧
    parseLineItem "0".toList = none := by
  refine ⟨by decide, by decide⟩

/-- C7 amended: for every input line that survives the noise guards (length at
least 2, a nonempty cleaned line, and a nonempty name after the final cleanup),
if every quantity pattern either does not match or matches a quantity of 0 or
above 100, the extractor keeps the whole cleaned line as the item name with
quantity defaulted to 1; a matched quantity is adopted only in 1..100, and the
pattern loop stops at the first sane match. -/
theorem parseLineItem_insane_defaults :
    ∀ line : Str, 2 ≤ line.length → cleanLine line ≠ [] →
      (∀ p ∈ quantityPatterns, insaneOrNone p (cleanLine line) = true) →
      finalCleanup (cleanLine line) ≠ [] →
      parseLineItem line = some ⟨finalCleanup (cleanLine line), 1, line⟩ := by
  intro line hlen hcl hpat hname
  have hfs := firstSane_eq_none_of_insane quantityPatterns (cleanLine line) hpat
  simp only [parseLineItem, hfs]
  rw [if_neg (by omega), if_neg hcl, if_neg hname]

/-- C7 witness: "Paracetamol 500" satisfies the amended hypotheses (the only
matching pattern is the trailing number 500, above the sanity bound) and is kept
whole with quantity 1. -/
theorem parseLineItem_insane_defaults_witness :
    (2 ≤ ("Paracetamol 500".toList).length) ∧
    (cleanLine "Paracetamol 500".toList ≠ []) ∧
    (∀ p ∈ quantityPatterns, insaneOrNone p (cleanLine "Paracetamol 500".toList) = true) ∧
    (finalCleanup (cleanLine "Paracetamol 500".toList) ≠ []) ∧
    parseLineItem "Paracetamol 500".toList =
      some ⟨finalCleanup (cleanLine "Paracetamol 500".toList), 1, "Paracetamol 500".toList⟩ :=
  ⟨by decide, by decide, by decide, by decide,
    parseLineItem_insane_defaults "Paracetamol 500".toList
      (by decide) (by decide) (by decide) (by decide)⟩

theorem isPrefLC_iff : ∀ (n h : Str), isPrefLC n h = true ↔ n <+: h := by
  intro n
  induction n with
  | nil => intro h; simp [isPrefLC]
  | cons a as ih =>
      intro h
      cases h with
      | nil => simp [isPrefLC]
      | cons b bs => simp [isPrefLC, List.cons_prefix_cons, ih]

theorem isSubLC_iff : ∀ (n h : Str), isSubLC n h = true ↔ n <:+: h := by
  intro n h
  induction h with
  | nil => simp [isSubLC, isPrefLC_iff]
  | cons c t ih => simp [isSubLC, isPrefLC_iff, ih, List.infix_cons_iff]

theorem isSubLC_sandwich : ∀ (a n b : Str), isSubLC n (a ++ (n ++ b)) = true := by
  intro a n b
  rw [isSubLC_iff]
  exact ⟨a, b, by simp⟩

/-- C2: when the requested event is not admitted by the order's current status,
transitionOrderStatus rejects with an error message naming both the current
status and the attempted event type, and returns the database exactly as it
was: no order row and no order_status_history row is touched. -/
theorem transitionOrderStatus_invalid_rejects :
    ∀ (db : DB) (orderId pharmacyId : Nat) (event : OrderEvent) (changedBy : Option Nat)
      (order : OrderRow) (cust : CustomerRow),
      getOrderById db orderId pharmacyId = some (order, cust) →
      getNextStatus order.status event = none →
      transitionOrderStatus db orderId pharmacyId event changedBy =
        (db, .error (invalidTransitionMsg event order.status)) ∧
      isSubLC (statusName order.status).toList
        (invalidTransitionMsg event order.status).toList = true ∧
      isSubLC (eventTypeName (eventType event)).toList
        (invalidTransitionMsg event order.status).toList = true := by
  intro db oid pid e cb order cust hget hnext
  refine ⟨?_, ?_, ?_⟩
  · simp only [transitionOrderStatus, hget, hnext]
  · have h1 : (invalidTransitionMsg e order.status).toList =
        ("Invalid transition: Cannot apply " ++ eventTypeName (eventType e) ++
          " to order in ").toList ++
          ((statusName order.status).toList ++ " status".toList) := by
      simp [invalidTransitionMsg, String.toList]
    rw [h1]
    exact isSubLC_sandwich _ _ _
  · have h2 : (invalidTransitionMsg e order.status).toList =
        "Invalid transition: Cannot apply ".toList ++
          ((eventTypeName (eventType e)).toList ++
            (" to order in " ++ statusName order.status ++ " status").toList) := by
      simp [invalidTransitionMsg, String.toList]
    rw [h2]
    exact isSubLC_sandwich _ _ _

/-- C2 witness: a completed order rejects `MARK_READY` untouched. -/
theorem transitionOrderStatus_invalid_rejects_witness :
    (getOrderById c2db 1 2 = some (c2order, c2cust)) ∧
    (getNextStatus c2order.status .MARK_READY = none) ∧
    (transitionOrderStatus c2db 1 2 .MARK_READY none =
        (c2db, .error (invalidTransitionMsg .MARK_READY c2order.status)) ∧
      isSubLC (statusName c2order.status).toList
        (invalidTransitionMsg .MARK_READY c2order.status).toList = true ∧
      isSubLC (eventTypeName (eventType .MARK_READY)).toList
        (invalidTransitionMsg .MARK_READY c2order.status).toList = true) :=
  ⟨by decide, by decide,
    transitionOrderStatus_invalid_rejects c2db 1 2 .MARK_READY none c2order c2cust
      (by decide) (by decide)⟩

/-- C6 counterexample: a `courier_assigned` delivery holding a provider order id
is cancelled locally without any provider-side cancel attempt — the source only
attempts the provider cancel when the status is exactly `booked`. -/
theorem cancelDelivery_courier_assigned_skips_provider :
    (c6delivery.status = .courier_assigned) ∧
    (c6delivery.borzoOrderId.isSome = true) ∧
    (getDeliveryById c6db 1 = some c6delivery) ∧
    ((cancelDelivery (.ok ()) c6db 1).2.1 = false) ∧
    ((cancelDelivery (.ok ()) c6db 1).1.deliveries =
      [{ c6delivery with status := .cancelled }]) := by
  refine ⟨by decide, by decide, by decide, by decide, by decide⟩

/-- C6 amended: cancelDelivery attempts the provider-side cancel exactly when the
delivery holds a provider order id and its status is `booked` (not
`courier_assigned`); in every case — including a failed provider cancel, which is
only logged — the local delivery status is set to `cancelled`. -/
theorem cancelDelivery_provider_call_only_when_booked :
    ∀ (borzoCancel : Except String Unit) (db : DB) (deliveryId : Nat) (d : DeliveryRow),
      getDeliveryById db deliveryId = some d →
      ((cancelDelivery borzoCancel db deliveryId).2.1 =
        (d.borzoOrderId.isSome && decide (d.status = .booked))) ∧
      ((cancelDelivery borzoCancel db deliveryId).1 =
        updateDeliveryStatus db deliveryId .cancelled) ∧
      ((cancelDelivery borzoCancel db deliveryId).2.2 = .ok ()) ∧
      (∀ d' ∈ (cancelDelivery borzoCancel db deliveryId).1.deliveries,
        d'.id = deliveryId → d'.status = .cancelled) := by
  intro bc db did d hget
  refine ⟨?_, ?_, ?_, ?_⟩
  · simp only [cancelDelivery, hget]
  · simp only [cancelDelivery, hget]
  · simp only [cancelDelivery, hget]
  · intro d' hd' hid
    simp only [cancelDelivery, hget, updateDeliveryStatus] at hd'
    obtain ⟨x, hx, hfx⟩ := List.mem_map.mp hd'
    by_cases h : x.id = did
    · rw [if_pos h] at hfx
      rw [← hfx]
    · rw [if_neg h] at hfx
      rw [← hfx] at hid
      exact absurd hid h

/-- C6 witness: a `booked` delivery with a failing provider cancel still ends
`cancelled` locally, with the provider call attempted. -/
theorem cancelDelivery_provider_call_only_when_booked_witness :
    (getDeliveryById c6wdb 3 = some c6wdelivery) ∧
    (((cancelDelivery (.error "timeout") c6wdb 3).2.1 =
        (c6wdelivery.borzoOrderId.isSome && decide (c6wdelivery.status = .booked))) ∧
      ((cancelDelivery (.error "timeout") c6wdb 3).1 =
        updateDeliveryStatus c6wdb 3 .cancelled) ∧
      ((cancelDelivery (.error "timeout") c6wdb 3).2.2 = .ok ()) ∧
      (∀ d' ∈ (cancelDelivery (.error "timeout") c6wdb 3).1.deliveries,
        d'.id = 3 → d'.status = .cancelled)) :=
  ⟨by decide,
    cancelDelivery_provider_call_only_when_booked (.error "timeout") c6wdb 3 c6wdelivery
      (by decide)⟩

theorem newestFold_spec :
    ∀ (l : List OrderRow) (b : OrderRow),
      ∃ m, newestFold l (some b) = some m ∧ (m = b ∨ m ∈ l) ∧
        b.createdAt ≤ m.createdAt ∧ ∀ x ∈ l, x.createdAt ≤ m.createdAt := by
  intro l
  induction l with
  | nil => intro b; exact ⟨b, rfl, Or.inl rfl, le_refl _, by simp⟩
  | cons o rest ih =>
      intro b
      obtain ⟨m, hm, hmem, hble, hall⟩ := ih (if b.createdAt < o.createdAt then o else b)
      refine ⟨m, by simpa [newestFold] using hm, ?_, ?_, ?_⟩
      · rcases hmem with h | h
        · by_cases hc : b.createdAt < o.createdAt
          · rw [if_pos hc] at h
            exact Or.inr (h ▸ List.mem_cons_self o rest)
          · rw [if_neg hc] at h
            exact Or.inl h
        · exact Or.inr (List.mem_cons_of_mem _ h)
      · refine le_trans ?_ hble
        by_cases hc : b.createdAt < o.createdAt
        · rw [if_pos hc]; exact le_of_lt hc
        · rw [if_neg hc]
      · intro x hx
        rcases List.mem_cons.mp hx with h | h
        · subst h
          refine le_trans ?_ hble
          by_cases hc : b.createdAt < x.createdAt
          · rw [if_pos hc]
          · rw [if_neg hc]; exact le_of_not_lt hc
        · exact hall x h

theorem selectNewest_spec :
    ∀ (p : OrderRow → Bool) (l : List OrderRow) (o : OrderRow),
      o ∈ l → p o = true →
      ∃ sel, selectNewest p l = some sel ∧ sel ∈ l ∧ p sel = true ∧
        ∀ o₂ ∈ l, p o₂ = true → o₂.createdAt ≤ sel.createdAt := by
  intro p l o hmem hp
  have hof : o ∈ l.filter p := List.mem_filter.mpr ⟨hmem, hp⟩
  cases hl : l.filter p with
  | nil => rw [hl] at hof; cases hof
  | cons f rest =>
      obtain ⟨m, hm, hmm, hfle, hall⟩ := newestFold_spec rest f
      have hsel : selectNewest p l = some m := by
        simp only [selectNewest, hl, newestFold]
        exact hm
      have hmf : m ∈ l.filter p := by
        rw [hl]
        rcases hmm with h | h
        · exact h ▸ List.mem_cons_self f rest
        · exact List.mem_cons_of_mem _ h
      have hmp := List.mem_filter.mp hmf
      refine ⟨m, hsel, hmp.1, hmp.2, ?_⟩
      intro o₂ h2 hp2
      have h2f : o₂ ∈ l.filter p := List.mem_filter.mpr ⟨h2, hp2⟩
      rw [hl] at h2f
      rcases List.mem_cons.mp h2f with h | h
      · exact h ▸ hfle
      · exact hall o₂ h

/-- C10: whenever a qualifying order exists, each Intent-Resolver lookup — the
active-order lookup, the prescription-upload lookup, the new-address and
saved-address lookups, and the payment-acknowledgement lookup — returns a
qualifying order whose created_at dominates every qualifying order (the SQL
`ORDER BY created_at DESC LIMIT 1`), so with distinct creation times the newest
qualifying order is the one attributed and modified. -/
theorem lookups_pick_newest :
    (∀ (db : DB) (cid pid : Nat) (o : OrderRow),
      o ∈ db.orders → activePred cid pid o = true →
      ∃ sel, findActiveOrder db cid pid = some sel ∧ sel ∈ db.orders ∧
        activePred cid pid sel = true ∧
        ∀ o₂ ∈ db.orders, activePred cid pid o₂ = true →
          o₂.createdAt ≤ sel.createdAt) ∧
    (∀ (db : DB) (cid pid : Nat) (o : OrderRow),
      o ∈ db.orders → pendingRxPred cid pid o = true →
      ∃ sel, findPendingRxOrder db cid pid = some sel ∧ sel ∈ db.orders ∧
        pendingRxPred cid pid sel = true ∧
        ∀ o₂ ∈ db.orders, pendingRxPred cid pid o₂ = true →
          o₂.createdAt ≤ sel.createdAt) ∧
    (∀ (db : DB) (cid pid : Nat) (o : OrderRow),
      o ∈ db.orders → awaitingAddrPred cid pid o = true →
      ∃ sel, findOrderNeedingAddress db cid pid = some sel ∧ sel ∈ db.orders ∧
        awaitingAddrPred cid pid sel = true ∧
        ∀ o₂ ∈ db.orders, awaitingAddrPred cid pid o₂ = true →
          o₂.createdAt ≤ sel.createdAt) ∧
    (∀ (db : DB) (cid pid : Nat) (o : OrderRow) (c : CustomerRow) (a : Str),
      o ∈ db.orders → awaitingAddrPred cid pid o = true →
      db.customers.find? (fun c => decide (c.id = cid)) = some c →
      c.address = some a → a ≠ [] →
      ∃ sel, findOrderWithPrevAddress db cid pid = some (sel, a) ∧ sel ∈ db.orders ∧
        awaitingAddrPred cid pid sel = true ∧
        ∀ o₂ ∈ db.orders, awaitingAddrPred cid pid o₂ = true →
          o₂.createdAt ≤ sel.createdAt) ∧
    (∀ (db : DB) (cid pid : Nat) (o : OrderRow),
      o ∈ db.orders → awaitingPaymentPred cid pid o = true →
      ∃ sel, findAwaitingPaymentOrder db cid pid = some sel ∧ sel ∈ db.orders ∧
        awaitingPaymentPred cid pid sel = true ∧
        ∀ o₂ ∈ db.orders, awaitingPaymentPred cid pid o₂ = true →
          o₂.createdAt ≤ sel.createdAt) := by
  refine ⟨?_, ?_, ?_, ?_, ?_⟩
  · intro db cid pid o hm hp
    exact selectNewest_spec (activePred cid pid) db.orders o hm hp
  · intro db cid pid o hm hp
    exact selectNewest_spec (pendingRxPred cid pid) db.orders o hm hp
  · intro db cid pid o hm hp
    exact selectNewest_spec (awaitingAddrPred cid pid) db.orders o hm hp
  · intro db cid pid o c a hm hp hfind haddr hane
    obtain ⟨sel, hsel, hselm, hselp, hdom⟩ :=
      selectNewest_spec (awaitingAddrPred cid pid) db.orders o hm hp
    refine ⟨sel, ?_, hselm, hselp, hdom⟩
    simp only [findOrderWithPrevAddress, hfind, haddr, if_neg hane,
      findOrderNeedingAddress] at *
    rw [hsel]
    rfl
  · intro db cid pid o hm hp
    exact selectNewest_spec (awaitingPaymentPred cid pid) db.orders o hm hp

/-- C10 witness: in a state with several qualifying orders per branch, every
lookup returns a dominating qualifying order. -/
theorem lookups_pick_newest_witness :
    (∃ sel, findActiveOrder c10db 5 2 = some sel ∧ sel ∈ c10db.orders ∧
      activePred 5 2 sel = true ∧
      ∀ o₂ ∈ c10db.orders, activePred 5 2 o₂ = true → o₂.createdAt ≤ sel.createdAt) ∧
    (∃ sel, findPendingRxOrder c10db 5 2 = some sel ∧ sel ∈ c10db.orders ∧
      pendingRxPred 5 2 sel = true ∧
      ∀ o₂ ∈ c10db.orders, pendingRxPred 5 2 o₂ = true → o₂.createdAt ≤ sel.createdAt) ∧
    (∃ sel, findOrderNeedingAddress c10db 5 2 = some sel ∧ sel ∈ c10db.orders ∧
      awaitingAddrPred 5 2 sel = true ∧
      ∀ o₂ ∈ c10db.orders, awaitingAddrPred 5 2 o₂ = true → o₂.createdAt ≤ sel.createdAt) ∧
    (∃ sel, findOrderWithPrevAddress c10db 5 2 =
        some (sel, "12 A street, 560001".toList) ∧ sel ∈ c10db.orders ∧
      awaitingAddrPred 5 2 sel = true ∧
      ∀ o₂ ∈ c10db.orders, awaitingAddrPred 5 2 o₂ = true → o₂.createdAt ≤ sel.createdAt) ∧
    (∃ sel, findAwaitingPaymentOrder c10db 5 2 = some sel ∧ sel ∈ c10db.orders ∧
      awaitingPaymentPred 5 2 sel = true ∧
      ∀ o₂ ∈ c10db.orders, awaitingPaymentPred 5 2 o₂ = true →
        o₂.createdAt ≤ sel.createdAt) :=
  ⟨lookups_pick_newest.1 c10db 5 2 (mkOrder 1 .pending 1 2 5 none)
      (by decide) (by decide),
    lookups_pick_newest.2.1 c10db 5 2 (mkOrder 2 .awaiting_rx 2 2 5 none)
      (by decide) (by decide),
    lookups_pick_newest.2.2.1 c10db 5 2 (mkOrder 4 .confirmed 4 2 5 none)
      (by decide) (by decide),
    lookups_pick_newest.2.2.2.1 c10db 5 2 (mkOrder 4 .confirmed 4 2 5 none)
      ⟨5, "phone5", none, some "12 A street, 560001".toList⟩
      "12 A street, 560001".toList
      (by decide) (by decide) (by decide) (by decide) (by decide),
    lookups_pick_newest.2.2.2.2 c10db 5 2 (mkOrder 6 .awaiting_payment 6 2 5 none)
      (by decide) (by decide)⟩

theorem selectNewest_mem :
    ∀ (p : OrderRow → Bool) (l : List OrderRow) (sel : OrderRow),
      selectNewest p l = some sel → sel ∈ l ∧ p sel = true := by
  intro p l sel hsel
  cases hl : l.filter p with
  | nil =>
      rw [selectNewest, hl] at hsel
      cases hsel
  | cons f rest =>
      obtain ⟨m, hm, hmm, -, -⟩ := newestFold_spec rest f
      rw [selectNewest, hl] at hsel
      rw [show newestFold (f :: rest) none = newestFold rest (some f) from rfl, hm] at hsel
      obtain rfl : m = sel := Option.some.inj hsel
      have hmf : m ∈ l.filter p := by
        rw [hl]
        rcases hmm with h | h
        · exact h ▸ List.mem_cons_self f rest
        · exact List.mem_cons_of_mem _ h
      exact List.mem_filter.mp hmf

theorem getNextStatus_rx_uploaded :
    ∀ (s : OrderStatus) (ns : OrderStatus),
      getNextStatus s .RX_UPLOADED = some ns → s = .awaiting_rx ∧ ns = .rx_received := by
  intro s ns h
  cases s <;> simp [getNextStatus, transitions, eventType] at h <;> simp [h.symm]

theorem transitionOrderStatus_notfound_eq :
    ∀ (db : DB) (oid pid : Nat) (e : OrderEvent) (cb : Option Nat),
      getOrderById db oid pid = none →
      transitionOrderStatus db oid pid e cb = (db, .error "Order not found") := by
  intro db oid pid e cb hget
  simp only [transitionOrderStatus, hget]

theorem transitionOrderStatus_invalid_eq :
    ∀ (db : DB) (oid pid : Nat) (e : OrderEvent) (cb : Option Nat)
      (ord : OrderRow) (cust : CustomerRow),
      getOrderById db oid pid = some (ord, cust) →
      getNextStatus ord.status e = none →
      transitionOrderStatus db oid pid e cb =
        (db, .error (invalidTransitionMsg e ord.status)) := by
  intro db oid pid e cb ord cust hget hnext
  simp only [transitionOrderStatus, hget, hnext]

theorem transitionOrderStatus_ok_eq :
    ∀ (db : DB) (oid pid : Nat) (e : OrderEvent) (cb : Option Nat)
      (ord : OrderRow) (cust : CustomerRow) (ns : OrderStatus),
      getOrderById db oid pid = some (ord, cust) →
      getNextStatus ord.status e = some ns →
      transitionOrderStatus db oid pid e cb =
        ({ db with
            orders := db.orders.map fun o =>
              if o.id = oid ∧ o.pharmacyId = pid then applyTransitionUpdate e ns o else o
            history := db.history ++ [⟨oid, some ord.status, ns, cb, transitionReason e⟩] },
          .ok (applyTransitionUpdate e ns ord)) := by
  intro db oid pid e cb ord cust ns hget hnext
  simp only [transitionOrderStatus, hget, hnext, logStatusChange]

/-- C3 counterexample: the courier webhook, on a delivery reaching `delivered`,
writes `orders.status = 'completed'` directly: a cancelled order is forced to
`completed` even though the state machine admits no event from `cancelled`, and
no audit row is appended — so transitionOrderStatus is not the only writer of
the status field. -/
theorem borzoWebhook_writes_status_directly :
    ((c3db.orders.map fun o => o.status) = [.cancelled]) ∧
    (((borzoWebhook c3db "B7" "completed" none).orders.map fun o => o.status) =
      [.completed]) ∧
    ((borzoWebhook c3db "B7" "completed" none).history = c3db.history) ∧
    (∀ e, getNextStatus .cancelled e = none) := by
  refine ⟨by decide, by decide, by decide, fun e => by cases e <;> rfl⟩

theorem applyTransitionUpdate_id :
    ∀ (e : OrderEvent) (ns : OrderStatus) (o : OrderRow),
      (applyTransitionUpdate e ns o).id = o.id := fun _ _ _ => rfl

theorem applyTransitionUpdate_status :
    ∀ (e : OrderEvent) (ns : OrderStatus) (o : OrderRow),
      (applyTransitionUpdate e ns o).status = ns := fun _ _ _ => rfl

theorem applyTransitionUpdate_same :
    ∀ (e : OrderEvent) (ns : OrderStatus) (o : OrderRow),
      (applyTransitionUpdate e ns o).pharmacyId = o.pharmacyId ∧
      (applyTransitionUpdate e ns o).customerId = o.customerId ∧
      (applyTransitionUpdate e ns o).orderNumber = o.orderNumber ∧
      (applyTransitionUpdate e ns o).deliveryAddress = o.deliveryAddress ∧
      (applyTransitionUpdate e ns o).createdAt = o.createdAt :=
  fun _ _ _ => ⟨rfl, rfl, rfl, rfl, rfl⟩

theorem getOrderById_some_mem :
    ∀ (db : DB) (oid pid : Nat) (ord : OrderRow) (cust : CustomerRow),
      getOrderById db oid pid = some (ord, cust) →
      ord ∈ db.orders ∧ ord.id = oid ∧ ord.pharmacyId = pid ∧
      db.customers.find? (fun c => decide (c.id = ord.customerId)) = some cust := by
  intro db oid pid ord cust h
  unfold getOrderById at h
  cases hfo : findOrderRow db oid pid with
  | none => rw [hfo] at h; cases h
  | some o =>
      rw [hfo] at h
      dsimp only at h
      cases hcf : db.customers.find? (fun c => decide (c.id = o.customerId)) with
      | none => rw [hcf] at h; cases h
      | some c =>
          rw [hcf] at h
          have hoc : o = ord := congrArg Prod.fst (Option.some.inj h)
          have hcc : c = cust := congrArg Prod.snd (Option.some.inj h)
          unfold findOrderRow at hfo
          have hmem := List.mem_of_find?_eq_some hfo
          have hpred : o.id = oid ∧ o.pharmacyId = pid := by
            simpa using List.find?_some hfo
          rw [← hoc, ← hcc]
          exact ⟨hmem, hpred.1, hpred.2, hcf⟩

theorem findOrCreateCustomer_parts :
    ∀ (db : DB) (cid : Nat) (n : Option Str),
      ((findOrCreateCustomer db cid n).1.orders = db.orders) ∧
      ((findOrCreateCustomer db cid n).1.history = db.history) ∧
      ((findOrCreateCustomer db cid n).1.messages = db.messages) ∧
      ((findOrCreateCustomer db cid n).1.deliveries = db.deliveries) ∧
      ((findOrCreateCustomer db cid n).1.pharmacies = db.pharmacies) ∧
      ((findOrCreateCustomer db cid n).2.id = cid) := by
  intro db cid n
  unfold findOrCreateCustomer
  split
  · rename_i c hf
    have hcid : c.id = cid := by simpa using List.find?_some hf
    split
    · exact ⟨rfl, rfl, rfl, rfl, rfl, hcid⟩
    · exact ⟨rfl, rfl, rfl, rfl, rfl, hcid⟩
  · exact ⟨rfl, rfl, rfl, rfl, rfl, rfl⟩

theorem transitionOrderStatus_ok_inv :
    ∀ (db : DB) (oid pid : Nat) (e : OrderEvent) (cb : Option Nat) (db' : DB)
      (ord' : OrderRow),
      transitionOrderStatus db oid pid e cb = (db', .ok ord') →
      ∃ ord cust ns, getOrderById db oid pid = some (ord, cust) ∧
        getNextStatus ord.status e = some ns ∧
        db' = { db with
            orders := db.orders.map fun o =>
              if o.id = oid ∧ o.pharmacyId = pid then applyTransitionUpdate e ns o else o
            history := db.history ++ [⟨oid, some ord.status, ns, cb, transitionReason e⟩] } ∧
        ord' = applyTransitionUpdate e ns ord := by
  intro db oid pid e cb db' ord' h
  cases hget : getOrderById db oid pid with
  | none =>
      rw [transitionOrderStatus_notfound_eq db oid pid e cb hget] at h
      have h2 : (Except.error "Order not found" : Except String OrderRow) = .ok ord' :=
        congrArg Prod.snd h
      exact absurd h2 (by simp)
  | some oc =>
      obtain ⟨ord, cust⟩ := oc
      cases hnext : getNextStatus ord.status e with
      | none =>
          rw [transitionOrderStatus_invalid_eq db oid pid e cb ord cust hget hnext] at h
          have h2 : (Except.error (invalidTransitionMsg e ord.status) :
              Except String OrderRow) = .ok ord' := congrArg Prod.snd h
          exact absurd h2 (by simp)
      | some ns =>
          rw [transitionOrderStatus_ok_eq db oid pid e cb ord cust ns hget hnext] at h
          refine ⟨ord, cust, ns, rfl, hnext, (congrArg Prod.fst h).symm, ?_⟩
          have h2 : Except.ok (applyTransitionUpdate e ns ord) =
              (Except.ok ord' : Except String OrderRow) := congrArg Prod.snd h
          injection h2 with h3
          exact h3.symm

theorem transitionOrderStatus_err_inv :
    ∀ (db : DB) (oid pid : Nat) (e : OrderEvent) (cb : Option Nat) (db' : DB)
      (s : String),
      transitionOrderStatus db oid pid e cb = (db', .error s) → db' = db := by
  intro db oid pid e cb db' s h
  cases hget : getOrderById db oid pid with
  | none =>
      rw [transitionOrderStatus_notfound_eq db oid pid e cb hget] at h
      exact (congrArg Prod.fst h).symm
  | some oc =>
      obtain ⟨ord, cust⟩ := oc
      cases hnext : getNextStatus ord.status e with
      | none =>
          rw [transitionOrderStatus_invalid_eq db oid pid e cb ord cust hget hnext] at h
          exact (congrArg Prod.fst h).symm
      | some ns =>
          rw [transitionOrderStatus_ok_eq db oid pid e cb ord cust ns hget hnext] at h
          have h2 : Except.ok (applyTransitionUpdate e ns ord) =
              (Except.error s : Except String OrderRow) := congrArg Prod.snd h
          exact absurd h2 (by simp)

theorem tryRxUploadBranch_shape :
    ∀ (db : DB) (m : InboundMsg) (cust : CustomerRow) (ph : PharmacyRow) (r : DB × Str),
      tryRxUploadBranch db m cust ph = some r →
      (r.1.deliveries = db.deliveries) ∧
      ∀ o' ∈ r.1.orders,
        (∃ o ∈ db.orders, o.id = o'.id ∧ o'.status = o.status) ∨
        (∃ o ∈ db.orders, o.id = o'.id ∧ o.status = .awaiting_rx ∧
          o'.status = .rx_received) := by
  intro db m cust ph r h
  unfold tryRxUploadBranch at h
  split at h
  · split at h
    · rename_i rxo hfp
      split at h
      · rename_i db2 ord2 htrans
        obtain rfl := Option.some.inj h
        obtain ⟨ord, cust2, ns, hget, hnext, hdb2, -⟩ :=
          transitionOrderStatus_ok_inv _ _ _ _ _ _ _ htrans
        obtain ⟨hsa, hsb⟩ := getNextStatus_rx_uploaded ord.status ns hnext
        obtain ⟨hmem, hoid, hpid, -⟩ := getOrderById_some_mem _ _ _ _ _ hget
        subst hdb2
        refine ⟨rfl, ?_⟩
        intro o' ho'
        obtain ⟨x, hx, hfx⟩ := List.mem_map.mp ho'
        by_cases hc : x.id = rxo.id ∧ x.pharmacyId = ph.id
        · rw [if_pos hc] at hfx
          right
          refine ⟨ord, hmem, ?_, hsa, ?_⟩
          · rw [← hfx, applyTransitionUpdate_id, hoid, hc.1]
          · rw [← hfx, applyTransitionUpdate_status, hsb]
        · rw [if_neg hc] at hfx
          exact Or.inl ⟨x, hx, by rw [hfx], by rw [hfx]⟩
      · rename_i db2 err htrans
        obtain rfl := Option.some.inj h
        have hdb2 := transitionOrderStatus_err_inv _ _ _ _ _ _ _ htrans
        subst hdb2
        exact ⟨rfl, fun o' ho' => Or.inl ⟨o', ho', rfl, rfl⟩⟩
    · exact Option.noConfusion h
  · exact Option.noConfusion h

theorem tryPrevAddressBranch_shape :
    ∀ (db : DB) (m : InboundMsg) (cust : CustomerRow) (ph : PharmacyRow) (r : DB × Str),
      tryPrevAddressBranch db m cust ph = some r →
      (r.1.deliveries = db.deliveries) ∧
      ∀ o' ∈ r.1.orders, ∃ o ∈ db.orders, o.id = o'.id ∧ o'.status = o.status := by
  intro db m cust ph r h
  unfold tryPrevAddressBranch at h
  split at h
  · split at h
    · rename_i op hfo
      obtain rfl := Option.some.inj h
      refine ⟨rfl, ?_⟩
      intro o' ho'
      obtain ⟨x, hx, hfx⟩ := List.mem_map.mp ho'
      by_cases hc : x.id = op.1.id
      · rw [if_pos hc] at hfx
        exact ⟨x, hx, by rw [← hfx], by rw [← hfx]⟩
      · rw [if_neg hc] at hfx
        exact ⟨x, hx, by rw [hfx], by rw [hfx]⟩
    · exact Option.noConfusion h
  · exact Option.noConfusion h

theorem tryNewAddressBranch_shape :
    ∀ (db : DB) (m : InboundMsg) (cust : CustomerRow) (ph : PharmacyRow) (r : DB × Str),
      tryNewAddressBranch db m cust ph = some r →
      (r.1.deliveries = db.deliveries) ∧
      ∀ o' ∈ r.1.orders, ∃ o ∈ db.orders, o.id = o'.id ∧ o'.status = o.status := by
  intro db m cust ph r h
  unfold tryNewAddressBranch at h
  split at h
  · split at h
    · rename_i o hfo
      obtain rfl := Option.some.inj h
      refine ⟨rfl, ?_⟩
      intro o' ho'
      obtain ⟨x, hx, hfx⟩ := List.mem_map.mp ho'
      by_cases hc : x.id = o.id
      · rw [if_pos hc] at hfx
        exact ⟨x, hx, by rw [← hfx], by rw [← hfx]⟩
      · rw [if_neg hc] at hfx
        exact ⟨x, hx, by rw [hfx], by rw [hfx]⟩
    · exact Option.noConfusion h
  · exact Option.noConfusion h

theorem tryPaymentAckBranch_shape :
    ∀ (db : DB) (m : InboundMsg) (cust : CustomerRow) (ph : PharmacyRow) (r : DB × Str),
      tryPaymentAckBranch db m cust ph = some r →
      (r.1.deliveries = db.deliveries) ∧
      ∀ o' ∈ r.1.orders, ∃ o ∈ db.orders, o.id = o'.id ∧ o'.status = o.status := by
  intro db m cust ph r h
  unfold tryPaymentAckBranch at h
  split at h
  · split at h
    · rename_i o hfo
      obtain rfl := Option.some.inj h
      exact ⟨rfl, fun o' ho' => ⟨o', ho', rfl, rfl⟩⟩
    · exact Option.noConfusion h
  · exact Option.noConfusion h

theorem tryActiveOrderBranch_shape :
    ∀ (db : DB) (m : InboundMsg) (cust : CustomerRow) (ph : PharmacyRow) (r : DB × Str),
      tryActiveOrderBranch db m cust ph = some r →
      (r.1.deliveries = db.deliveries) ∧
      ∀ o' ∈ r.1.orders, ∃ o ∈ db.orders, o.id = o'.id ∧ o'.status = o.status := by
  intro db m cust ph r h
  unfold tryActiveOrderBranch at h
  split at h
  · rename_i o hfo
    obtain rfl := Option.some.inj h
    exact ⟨rfl, fun o' ho' => ⟨o', ho', rfl, rfl⟩⟩
  · exact Option.noConfusion h

/-- C3 amended: on the chat-webhook path every write to an order's status field
goes through transitionOrderStatus and the state machine — each order after
handleIncomingMessage either keeps its previous status, or went awaiting_rx →
rx_received (the one RX_UPLOADED transition the handler requests), or is a
newly created order in pending; and the chat path never touches Delivery rows.
(The courier webhook, by contrast, writes orders.status directly — see the
counterexample.) -/
theorem chat_webhook_status_writes_only_via_state_machine :
    ∀ (db : DB) (m : InboundMsg) (num : Str) (now : Nat),
      ((handleIncomingMessage db m num now).1.deliveries = db.deliveries) ∧
      ∀ o' ∈ (handleIncomingMessage db m num now).1.orders,
        (∃ o ∈ db.orders, o.id = o'.id ∧ o'.status = o.status) ∨
        (∃ o ∈ db.orders, o.id = o'.id ∧ o.status = .awaiting_rx ∧
          o'.status = .rx_received) ∨
        o'.status = .pending := by
  intro db m num now
  obtain ⟨hor, hhi, hme, hde, hph2, hcid⟩ :=
    findOrCreateCustomer_parts db m.fromCustomerId m.profileName
  have hORD : (insertMessage (findOrCreateCustomer db m.fromCustomerId m.profileName).1
      m.sid .inbound m.body).orders = db.orders := hor
  have hDEL : (insertMessage (findOrCreateCustomer db m.fromCustomerId m.profileName).1
      m.sid .inbound m.body).deliveries = db.deliveries := hde
  unfold handleIncomingMessage
  split
  · exact ⟨rfl, fun o' ho' => Or.inl ⟨o', ho', rfl, rfl⟩⟩
  · rename_i pharmacy hph
    dsimp only
    split
    · rename_i r hb1
      obtain ⟨hd, ho⟩ := tryRxUploadBranch_shape _ m _ pharmacy r hb1
      refine ⟨hd.trans hDEL, ?_⟩
      intro o' ho2
      rcases ho o' ho2 with ⟨o, hom, h1, h2⟩ | ⟨o, hom, h1, h2, h3⟩
      · exact Or.inl ⟨o, hORD ▸ hom, h1, h2⟩
      · exact Or.inr (Or.inl ⟨o, hORD ▸ hom, h1, h2, h3⟩)
    · split
      · rename_i r hb2
        obtain ⟨hd, ho⟩ := tryPrevAddressBranch_shape _ m _ pharmacy r hb2
        refine ⟨hd.trans hDEL, ?_⟩
        intro o' ho2
        obtain ⟨o, hom, h1, h2⟩ := ho o' ho2
        exact Or.inl ⟨o, hORD ▸ hom, h1, h2⟩
      · split
        · rename_i r hb3
          obtain ⟨hd, ho⟩ := tryNewAddressBranch_shape _ m _ pharmacy r hb3
          refine ⟨hd.trans hDEL, ?_⟩
          intro o' ho2
          obtain ⟨o, hom, h1, h2⟩ := ho o' ho2
          exact Or.inl ⟨o, hORD ▸ hom, h1, h2⟩
        · split
          · rename_i r hb4
            obtain ⟨hd, ho⟩ := tryPaymentAckBranch_shape _ m _ pharmacy r hb4
            refine ⟨hd.trans hDEL, ?_⟩
            intro o' ho2
            obtain ⟨o, hom, h1, h2⟩ := ho o' ho2
            exact Or.inl ⟨o, hORD ▸ hom, h1, h2⟩
          · split
            · rename_i r hb5
              obtain ⟨hd, ho⟩ := tryActiveOrderBranch_shape _ m _ pharmacy r hb5
              refine ⟨hd.trans hDEL, ?_⟩
              intro o' ho2
              obtain ⟨o, hom, h1, h2⟩ := ho o' ho2
              exact Or.inl ⟨o, hORD ▸ hom, h1, h2⟩
            · refine ⟨hDEL, ?_⟩
              intro o' ho2
              rcases List.mem_append.mp ho2 with hL | hR
              · exact Or.inl ⟨o', hORD ▸ hL, rfl, rfl⟩
              · have hEq := List.mem_singleton.mp hR
                exact Or.inr (Or.inr (by rw [hEq]))

/-- C3 witness: a prescription upload on an awaiting_rx order — the only status
write the chat path performs — matches the state-machine disjunction, and
indeed moves the order to rx_received. -/
theorem chat_webhook_status_writes_witness :
    ((handleIncomingMessage c3wdb c3wmsg [] 0).1.deliveries = c3wdb.deliveries) ∧
    (∀ o' ∈ (handleIncomingMessage c3wdb c3wmsg [] 0).1.orders,
      (∃ o ∈ c3wdb.orders, o.id = o'.id ∧ o'.status = o.status) ∨
      (∃ o ∈ c3wdb.orders, o.id = o'.id ∧ o.status = .awaiting_rx ∧
        o'.status = .rx_received) ∨
      o'.status = .pending) ∧
    ((handleIncomingMessage c3wdb c3wmsg [] 0).1.orders.map (fun o => o.status) =
      [.rx_received]) :=
  ⟨(chat_webhook_status_writes_only_via_state_machine c3wdb c3wmsg [] 0).1,
   (chat_webhook_status_writes_only_via_state_machine c3wdb c3wmsg [] 0).2,
   by decide⟩

theorem trimLC_decomp :
    ∀ l : Str, ∃ w₁ w₂, l = w₁ ++ (trimLC l ++ w₂) ∧
      (∀ c ∈ w₁, jsWS c = true) ∧ (∀ c ∈ w₂, jsWS c = true) := by
  intro l
  refine ⟨l.takeWhile jsWS, ((l.dropWhile jsWS).reverse.takeWhile jsWS).reverse,
    ?_, ?_, ?_⟩
  · conv_lhs => rw [← List.takeWhile_append_dropWhile jsWS l]
    congr 1
    have h1 : l.dropWhile jsWS =
        ((l.dropWhile jsWS).reverse.takeWhile jsWS ++
          (l.dropWhile jsWS).reverse.dropWhile jsWS).reverse := by
      rw [List.takeWhile_append_dropWhile, List.reverse_reverse]
    conv_lhs => rw [h1]
    rw [List.reverse_append]
    rfl
  · intro c hc
    exact List.mem_takeWhile_imp hc
  · intro c hc
    rw [List.mem_reverse] at hc
    exact List.mem_takeWhile_imp hc

theorem infix_ws_left :
    ∀ (w rest kw : Str), (∀ c ∈ kw, jsWS c = false) → (∀ c ∈ w, jsWS c = true) →
      kw <:+: (w ++ rest) → kw <:+: rest := by
  intro w
  induction w with
  | nil => intro rest kw _ _ h; simpa using h
  | cons c w ih =>
      intro rest kw hkw hw h
      rw [List.cons_append] at h
      rcases List.infix_cons_iff.mp h with hpre | hinf
      · cases kw with
        | nil => exact List.nil_infix
        | cons k ks =>
            have hkc : k = c := (List.cons_prefix_cons.mp hpre).1
            have h1 := hkw k (List.mem_cons_self k ks)
            have h2 := hw c (List.mem_cons_self c w)
            rw [hkc] at h1
            exact Bool.noConfusion (h1.symm.trans h2)
      · exact ih rest kw hkw (fun x hx => hw x (List.mem_cons_of_mem c hx)) hinf

theorem infix_ws_right :
    ∀ (rest w kw : Str), (∀ c ∈ kw, jsWS c = false) → (∀ c ∈ w, jsWS c = true) →
      kw <:+: (rest ++ w) → kw <:+: rest := by
  intro rest w kw hkw hw h
  have h1 : kw.reverse <:+: (rest ++ w).reverse := List.reverse_infix.mpr h
  rw [List.reverse_append] at h1
  have h2 := infix_ws_left w.reverse rest.reverse kw.reverse
    (fun c hc => hkw c (List.mem_reverse.mp hc))
    (fun c hc => hw c (List.mem_reverse.mp hc)) h1
  exact List.reverse_infix.mp h2

theorem infix_ws_middle :
    ∀ (w₁ mid w₂ kw : Str), (∀ c ∈ kw, jsWS c = false) →
      (∀ c ∈ w₁, jsWS c = true) → (∀ c ∈ w₂, jsWS c = true) →
      kw <:+: (w₁ ++ (mid ++ w₂)) → kw <:+: mid := by
  intro w₁ mid w₂ kw hkw h1 h2 h
  exact infix_ws_right mid w₂ kw hkw h2 (infix_ws_left w₁ (mid ++ w₂) kw hkw h1 h)

theorem jsWS_not_digit : ∀ c, jsWS c = true → isDigitC c = false := by
  intro c h
  have h2 := of_decide_eq_true h
  rcases h2 with rfl | rfl | rfl | rfl | rfl | rfl <;> decide

theorem lowerC_digit_fixed : ∀ c, isDigitC c = true → lowerC c = c := by
  intro c h
  have h2 := of_decide_eq_true h
  unfold lowerC
  rw [if_neg]
  omega

theorem hasRun6Digits_has_digit :
    ∀ l : Str, hasRun6Digits l = true → ∃ c ∈ l, isDigitC c = true := by
  intro l
  induction l with
  | nil => intro h; exact Bool.noConfusion h
  | cons c rest ih =>
      intro h
      unfold hasRun6Digits at h
      simp only [Bool.or_eq_true, Bool.and_eq_true] at h
      rcases h with h1 | h2
      · have hall := h1.2
        have hc : c ∈ (c :: rest).take 6 := by
          rw [List.take_cons (by omega)]
          exact List.mem_cons_self c _
        exact ⟨c, List.mem_cons_self c rest, (List.all_eq_true.mp hall) c hc⟩
      · obtain ⟨x, hx, hd⟩ := ih h2
        exact ⟨x, List.mem_cons_of_mem c hx, hd⟩

theorem digitThenComma_has_digit :
    ∀ l : Str, digitThenComma l = true → ∃ c ∈ l, isDigitC c = true := by
  intro l
  induction l with
  | nil => intro h; exact Bool.noConfusion h
  | cons c rest ih =>
      intro h
      unfold digitThenComma at h
      simp only [Bool.or_eq_true, Bool.and_eq_true] at h
      rcases h with h1 | h2
      · exact ⟨c, List.mem_cons_self c rest, h1.1⟩
      · obtain ⟨x, hx, hd⟩ := ih h2
        exact ⟨x, List.mem_cons_of_mem c hx, hd⟩

theorem payTokens_no_digit :
    ∀ t ∈ payTokens, ∀ c ∈ t, isDigitC c = false := by decide

theorem addrWords_no_ws :
    ∀ w ∈ addrWords, ∀ c ∈ w, jsWS c = false := by decide

theorem addrWords_not_in_tokens :
    ∀ w ∈ addrWords, ∀ t ∈ payTokens, isSubLC w t = false := by decide

theorem payTokens_not_affirm :
    ∀ t ∈ payTokens, t ∉ affirmTokens := by decide

/-- A body whose lowercased trim is a payment token contains no digit and no
address keyword, so the address heuristic rejects it. -/
theorem payToken_not_address :
    ∀ b : Str, trimLC (lowerLC b) ∈ payTokens → looksLikeAddress b = false := by
  intro b htok
  obtain ⟨w₁, w₂, hdec, hw1, hw2⟩ := trimLC_decomp (lowerLC b)
  have hnodig : ∀ c ∈ b, isDigitC c = false := by
    intro c hc
    by_contra hcd
    rw [Bool.not_eq_false] at hcd
    have hlc : lowerC c = c := lowerC_digit_fixed c hcd
    have hcl : c ∈ lowerLC b := hlc ▸ List.mem_map_of_mem lowerC hc
    rw [hdec] at hcl
    rcases List.mem_append.mp hcl with h1 | h23
    · exact Bool.noConfusion ((jsWS_not_digit c (hw1 c h1)).symm.trans hcd)
    · rcases List.mem_append.mp h23 with h2 | h3
      · exact Bool.noConfusion
          ((payTokens_no_digit (trimLC (lowerLC b)) htok c h2).symm.trans hcd)
      · exact Bool.noConfusion ((jsWS_not_digit c (hw2 c h3)).symm.trans hcd)
  have hA : hasRun6Digits b = false := by
    by_contra hA
    rw [Bool.not_eq_false] at hA
    obtain ⟨c, hc, hd⟩ := hasRun6Digits_has_digit b hA
    exact Bool.noConfusion ((hnodig c hc).symm.trans hd)
  have hB : digitThenComma b = false := by
    by_contra hB
    rw [Bool.not_eq_false] at hB
    obtain ⟨c, hc, hd⟩ := digitThenComma_has_digit b hB
    exact Bool.noConfusion ((hnodig c hc).symm.trans hd)
  have hC : ∀ w ∈ addrWords, isSubLC w (lowerLC b) = false := by
    intro w hwmem
    by_contra hC
    rw [Bool.not_eq_false] at hC
    have hinf : w <:+: lowerLC b := (isSubLC_iff w (lowerLC b)).mp hC
    rw [hdec] at hinf
    have hmid := infix_ws_middle w₁ (trimLC (lowerLC b)) w₂ w
      (addrWords_no_ws w hwmem) hw1 hw2 hinf
    have hsub : isSubLC w (trimLC (lowerLC b)) = true := (isSubLC_iff _ _).mpr hmid
    exact Bool.noConfusion
      ((addrWords_not_in_tokens w hwmem (trimLC (lowerLC b)) htok).symm.trans hsub)
  unfold looksLikeAddress
  rw [hA, hB]
  simp only [Bool.false_or]
  rw [List.any_eq_false]
  intro w hw
  rw [hC w hw]
  exact Bool.noConfusion

/-- C5 counterexample: a message whose body is the payment token "paid" but which
carries media, from a customer who also has an awaiting_rx order, is routed to
the prescription branch: the message is attributed to the rx order (never to the
awaiting_payment order) and a status transition is performed (awaiting_rx →
rx_received). -/
theorem payment_ack_media_counterexample :
    (trimLC (lowerLC c5msg.body) ∈ payTokens) ∧
    (findAwaitingPaymentOrder c5db c5msg.fromCustomerId c5msg.toPharmacyId =
      some c5orderPay) ∧
    (((handleIncomingMessage c5db c5msg [] 0).1.orders.map fun o => o.status) =
      [.rx_received, .awaiting_payment]) ∧
    (∀ mr ∈ (handleIncomingMessage c5db c5msg [] 0).1.messages,
      mr.orderId ≠ some c5orderPay.id) ∧
    ((handleIncomingMessage c5db c5msg [] 0).2 =
      rxReceivedReply c5orderRx.orderNumber) := by
  refine ⟨by decide, by decide, by decide, by decide, by decide⟩

/-- C5 amended: for every inbound message whose lowercased, trimmed body is a
payment-acknowledgement token and which does not reach the prescription branch
(no media, or no awaiting_rx order), when the customer has an awaiting_payment
order at the pharmacy the handler only attributes the message to the selected
awaiting_payment order and replies with the acknowledgement; no order row, no
audit row and no delivery row changes, so the order stays awaiting_payment. -/
theorem payment_ack_attributes_only :
    ∀ (db : DB) (m : InboundMsg) (o : OrderRow) (num : Str) (now : Nat)
      (pharmacy : PharmacyRow),
      db.pharmacies.find? (fun p => decide (p.id = m.toPharmacyId)) = some pharmacy →
      trimLC (lowerLC m.body) ∈ payTokens →
      (m.numMedia = 0 ∨ findPendingRxOrder db m.fromCustomerId m.toPharmacyId = none) →
      findAwaitingPaymentOrder db m.fromCustomerId m.toPharmacyId = some o →
      ((handleIncomingMessage db m num now).1.orders = db.orders) ∧
      ((handleIncomingMessage db m num now).1.history = db.history) ∧
      ((handleIncomingMessage db m num now).1.deliveries = db.deliveries) ∧
      (o ∈ db.orders ∧ o.status = .awaiting_payment) ∧
      ((⟨m.sid, some o.id, .inbound, m.body⟩ : MessageRow) ∈
        (handleIncomingMessage db m num now).1.messages) ∧
      ((handleIncomingMessage db m num now).2 = paymentAckReply o.orderNumber) := by
  intro db m o num now pharmacy hph htok hmedia hpay
  obtain ⟨hor, hhi, hme, hde, hph2, hcid⟩ :=
    findOrCreateCustomer_parts db m.fromCustomerId m.profileName
  have hORD : (insertMessage (findOrCreateCustomer db m.fromCustomerId m.profileName).1
      m.sid .inbound m.body).orders = db.orders := hor
  have hHIS : (insertMessage (findOrCreateCustomer db m.fromCustomerId m.profileName).1
      m.sid .inbound m.body).history = db.history := hhi
  have hDEL : (insertMessage (findOrCreateCustomer db m.fromCustomerId m.profileName).1
      m.sid .inbound m.body).deliveries = db.deliveries := hde
  have hosel := selectNewest_mem _ _ _ hpay
  unfold handleIncomingMessage
  split
  · rename_i hph0
    rw [hph] at hph0
    exact Option.noConfusion hph0
  · rename_i pharmacy2 hph0
    rw [hph] at hph0
    obtain rfl : pharmacy = pharmacy2 := Option.some.inj hph0
    have hpid : pharmacy.id = m.toPharmacyId := by simpa using List.find?_some hph
    dsimp only
    split
    · rename_i r hb1
      exfalso
      unfold tryRxUploadBranch at hb1
      by_cases hm : 0 < m.numMedia
      · rw [if_pos hm] at hb1
        rcases hmedia with h0 | hnone
        · omega
        · rw [hcid, hpid] at hb1
          have hfp : findPendingRxOrder (insertMessage (findOrCreateCustomer db
              m.fromCustomerId m.profileName).1 m.sid .inbound m.body)
              m.fromCustomerId m.toPharmacyId = none := by
            unfold findPendingRxOrder at hnone ⊢
            rw [hORD]
            exact hnone
          rw [hfp] at hb1
          exact Option.noConfusion hb1
      · rw [if_neg hm] at hb1
        exact Option.noConfusion hb1
    · split
      · rename_i r hb2
        exfalso
        unfold tryPrevAddressBranch at hb2
        rw [if_neg (payTokens_not_affirm _ htok)] at hb2
        exact Option.noConfusion hb2
      · split
        · rename_i r hb3
          exfalso
          unfold tryNewAddressBranch at hb3
          rw [if_neg (fun hcond => Bool.noConfusion
            ((payToken_not_address m.body htok).symm.trans hcond.1))] at hb3
          exact Option.noConfusion hb3
        · split
          · rename_i r hb4
            unfold tryPaymentAckBranch at hb4
            rw [if_pos htok, hcid, hpid] at hb4
            have hfa : findAwaitingPaymentOrder (insertMessage (findOrCreateCustomer db
                m.fromCustomerId m.profileName).1 m.sid .inbound m.body)
                m.fromCustomerId m.toPharmacyId = some o := by
              unfold findAwaitingPaymentOrder at hpay ⊢
              rw [hORD]
              exact hpay
            rw [hfa] at hb4
            obtain rfl := Option.some.inj hb4
            refine ⟨hORD, hHIS, hDEL,
              ⟨hosel.1, (of_decide_eq_true hosel.2).2.2⟩, ?_, rfl⟩
            refine List.mem_map.mpr ⟨⟨m.sid, none, .inbound, m.body⟩, ?_, ?_⟩
            · exact List.mem_append_right _ (List.mem_singleton.mpr rfl)
            · simp
          · rename_i hb4
            exfalso
            unfold tryPaymentAckBranch at hb4
            rw [if_pos htok, hcid, hpid] at hb4
            have hfa : findAwaitingPaymentOrder (insertMessage (findOrCreateCustomer db
                m.fromCustomerId m.profileName).1 m.sid .inbound m.body)
                m.fromCustomerId m.toPharmacyId = some o := by
              unfold findAwaitingPaymentOrder at hpay ⊢
              rw [hORD]
              exact hpay
            rw [hfa] at hb4
            exact Option.noConfusion hb4

/-- C5 witness: a plain "paid" text with an awaiting_payment order is attributed
and acknowledged without any state change. -/
theorem payment_ack_attributes_only_witness :
    (c5wdb.pharmacies.find? (fun p => decide (p.id = c5wmsg.toPharmacyId)) =
      some (mkPharmacy 2 none)) ∧
    (trimLC (lowerLC c5wmsg.body) ∈ payTokens) ∧
    (c5wmsg.numMedia = 0 ∨
      findPendingRxOrder c5wdb c5wmsg.fromCustomerId c5wmsg.toPharmacyId = none) ∧
    (findAwaitingPaymentOrder c5wdb c5wmsg.fromCustomerId c5wmsg.toPharmacyId =
      some c5orderPay) ∧
    (((handleIncomingMessage c5wdb c5wmsg [] 0).1.orders = c5wdb.orders) ∧
      ((handleIncomingMessage c5wdb c5wmsg [] 0).1.history = c5wdb.history) ∧
      ((handleIncomingMessage c5wdb c5wmsg [] 0).1.deliveries = c5wdb.deliveries) ∧
      (c5orderPay ∈ c5wdb.orders ∧ c5orderPay.status = .awaiting_payment) ∧
      ((⟨c5wmsg.sid, some c5orderPay.id, .inbound, c5wmsg.body⟩ : MessageRow) ∈
        (handleIncomingMessage c5wdb c5wmsg [] 0).1.messages) ∧
      ((handleIncomingMessage c5wdb c5wmsg [] 0).2 =
        paymentAckReply c5orderPay.orderNumber)) :=
  ⟨by decide, by decide, Or.inl (by decide), by decide,
    payment_ack_attributes_only c5wdb c5wmsg c5orderPay [] 0 (mkPharmacy 2 none)
      (by decide) (by decide) (Or.inl (by decide)) (by decide)⟩

theorem find?_map_ite :
    ∀ {α : Type} (l : List α) (P : α → Prop) [DecidablePred P] (u : α → α),
      (∀ x, P x ↔ P (u x)) →
      List.find? (fun x => decide (P x)) (l.map fun x => if P x then u x else x) =
        (List.find? (fun x => decide (P x)) l).map u := by
  intro α l P inst u hiff
  induction l with
  | nil => rfl
  | cons a t ih =>
      by_cases h : P a
      · rw [List.map_cons, if_pos h,
          List.find?_cons_of_pos _ (by simp [(hiff a).mp h]),
          List.find?_cons_of_pos _ (by simp [h])]
        rfl
      · rw [List.map_cons, if_neg h,
          List.find?_cons_of_neg _ (by simp [h]),
          List.find?_cons_of_neg _ (by simp [h])]
        exact ih

theorem find?_append_left_none :
    ∀ {α : Type} (p : α → Bool) (l₁ l₂ : List α),
      (∀ x ∈ l₁, p x = false) → List.find? p (l₁ ++ l₂) = List.find? p l₂ := by
  intro α p l₁ l₂ h
  induction l₁ with
  | nil => rfl
  | cons a t ih =>
      rw [List.cons_append,
        List.find?_cons_of_neg _ (by simp [h a (List.mem_cons_self a t)])]
      exact ih fun x hx => h x (List.mem_cons_of_mem a hx)

theorem find?_key_of_mem :
    ∀ {α κ : Type} [DecidableEq κ] (k : α → κ) (l : List α),
      l.Pairwise (fun a b => k a ≠ k b) → ∀ d ∈ l,
        List.find? (fun x => decide (k x = k d)) l = some d := by
  intro α κ inst k l
  induction l with
  | nil => intro _ d hd; cases hd
  | cons a t ih =>
      intro hpw d hd
      obtain ⟨ha, hpt⟩ := List.pairwise_cons.mp hpw
      rcases List.mem_cons.mp hd with rfl | hdt
      · exact List.find?_cons_of_pos _ (by simp)
      · have hne := ha d hdt
        rw [List.find?_cons_of_neg _ (by simp [hne])]
        exact ih hpt d hdt

theorem pairwise_key_unique :
    ∀ {α κ : Type} (k : α → κ) (l : List α), l.Pairwise (fun a b => k a ≠ k b) →
      ∀ x ∈ l, ∀ y ∈ l, k x = k y → x = y := by
  intro α κ k l
  induction l with
  | nil => intro _ x hx; cases hx
  | cons a t ih =>
      intro hpw x hx y hy hk
      obtain ⟨ha, hpt⟩ := List.pairwise_cons.mp hpw
      rcases List.mem_cons.mp hx with rfl | hxt
      · rcases List.mem_cons.mp hy with rfl | hyt
        · rfl
        · exact absurd hk (ha y hyt)
      · rcases List.mem_cons.mp hy with rfl | hyt
        · exact absurd hk.symm (ha x hxt)
        · exact ih hpt x hxt y hyt hk

theorem le_foldr_max :
    ∀ (l : List Nat) (x : Nat), x ∈ l → x ≤ l.foldr max 0 := by
  intro l
  induction l with
  | nil => intro x hx; cases hx
  | cons a t ih =>
      intro x hx
      rcases List.mem_cons.mp hx with rfl | hxt
      · exact le_max_left _ _
      · exact le_trans (ih x hxt) (le_max_right _ _)

theorem freshDeliveryId_not_mem :
    ∀ (db : DB) (d : DeliveryRow), d ∈ db.deliveries → d.id ≠ freshDeliveryId db := by
  intro db d hd
  have h := le_foldr_max (db.deliveries.map fun x => x.id) d.id
    (List.mem_map_of_mem _ hd)
  unfold freshDeliveryId
  omega

theorem getOrderById_inv :
    ∀ (db : DB) (oid pid : Nat) (ord : OrderRow) (cust : CustomerRow),
      getOrderById db oid pid = some (ord, cust) →
      findOrderRow db oid pid = some ord ∧
      db.customers.find? (fun c => decide (c.id = ord.customerId)) = some cust := by
  intro db oid pid ord cust h
  unfold getOrderById at h
  cases hfo : findOrderRow db oid pid with
  | none => rw [hfo] at h; cases h
  | some o =>
      rw [hfo] at h
      dsimp only at h
      cases hcf : db.customers.find? (fun c => decide (c.id = o.customerId)) with
      | none => rw [hcf] at h; cases h
      | some c =>
          rw [hcf] at h
          have hoc : o = ord := congrArg Prod.fst (Option.some.inj h)
          have hcc : c = cust := congrArg Prod.snd (Option.some.inj h)
          rw [← hoc, ← hcc]
          exact ⟨rfl, hcf⟩

theorem getDeliveryById_createDelivery :
    ∀ (db : DB) (oid pid cid : Nat) (pu ad : Str),
      getDeliveryById (createDelivery db oid pid cid pu ad).1
        (createDelivery db oid pid cid pu ad).2.id =
        some (createDelivery db oid pid cid pu ad).2 := by
  intro db oid pid cid pu ad
  unfold createDelivery getDeliveryById
  dsimp only
  rw [find?_append_left_none _ _ _
    (fun x hx => by simp [freshDeliveryId_not_mem db x hx])]
  simp

theorem bookDeliveryAndNotify_courier_error :
    ∀ (dbX : DB) (oid pid : Nat) (err : String) (o : OrderRow) (cust : CustomerRow)
      (ph : PharmacyRow) (addr pickupAddr : Str),
      findOrderRow dbX oid pid = some o →
      dbX.customers.find? (fun c => decide (c.id = o.customerId)) = some cust →
      dbX.pharmacies.find? (fun p => decide (p.id = pid)) = some ph →
      o.deliveryAddress = some addr →
      (match ph.pickupAddress with
       | some pa => some pa
       | none => ph.address) = some pickupAddr →
      dbX.deliveries.Pairwise (fun a b => a.id ≠ b.id) →
      ∃ db2, bookDeliveryAndNotify true (.error err) dbX oid pid =
          (db2, false, some err) ∧
        db2.orders = dbX.orders ∧ db2.history = dbX.history ∧
        db2.messages = dbX.messages ∧
        (∃ d ∈ db2.deliveries, d.orderId = oid ∧ d.status = .failed) ∧
        (dbX.deliveries.Pairwise (fun a b => a.orderId ≠ b.orderId) →
          ∀ d ∈ db2.deliveries, d.orderId = oid → d.status = .failed) := by
  intro dbX oid pid err o cust ph addr pickupAddr hfor hfcu hph haddr hpickup hWFid
  unfold bookDeliveryAndNotify
  rw [hfor]
  dsimp only
  rw [hfcu]
  dsimp only
  rw [hph]
  dsimp only
  rw [haddr]
  dsimp only
  rw [hpickup]
  dsimp only
  rw [if_neg (by decide)]
  cases hdex : getDeliveryByOrderId dbX oid with
  | some d =>
      dsimp only
      have hdmem : d ∈ dbX.deliveries := by
        unfold getDeliveryByOrderId at hdex
        exact List.mem_of_find?_eq_some hdex
      have hdoid : d.orderId = oid := by
        unfold getDeliveryByOrderId at hdex
        simpa using List.find?_some hdex
      have hgid : getDeliveryById dbX d.id = some d :=
        find?_key_of_mem (fun x : DeliveryRow => x.id) dbX.deliveries hWFid d hdmem
      unfold bookDelivery
      rw [hgid]
      dsimp only
      rw [if_neg (by decide)]
      refine ⟨updateDeliveryStatus dbX d.id .failed, rfl, rfl, rfl, rfl, ?_, ?_⟩
      · refine ⟨{ d with status := .failed }, ?_, hdoid, rfl⟩
        exact List.mem_map.mpr ⟨d, hdmem, by rw [if_pos rfl]⟩
      · intro hWFoid d' hd' hd'oid
        obtain ⟨x, hx, hfx⟩ := List.mem_map.mp hd'
        by_cases hc : x.id = d.id
        · rw [if_pos hc] at hfx
          rw [← hfx]
        · rw [if_neg hc] at hfx
          rw [← hfx] at hd'oid
          have hxy := pairwise_key_unique (fun z : DeliveryRow => z.orderId)
            dbX.deliveries hWFoid x hx d hdmem (hd'oid.trans hdoid.symm)
          exact absurd (congrArg DeliveryRow.id hxy) hc
  | none =>
      dsimp only
      have hnone_oid : ∀ x ∈ dbX.deliveries, x.orderId ≠ oid := by
        unfold getDeliveryByOrderId at hdex
        intro x hx
        have h2 := List.find?_eq_none.mp hdex x hx
        simpa using h2
      unfold bookDelivery
      rw [getDeliveryById_createDelivery dbX oid pid o.customerId pickupAddr addr]
      dsimp only
      rw [if_neg (by decide)]
      refine ⟨updateDeliveryStatus (createDelivery dbX oid pid o.customerId pickupAddr
          addr).1 (createDelivery dbX oid pid o.customerId pickupAddr addr).2.id .failed,
        rfl, rfl, rfl, rfl, ?_, ?_⟩
      · refine ⟨{ (createDelivery dbX oid pid o.customerId pickupAddr addr).2 with
            status := .failed }, ?_, rfl, rfl⟩
        exact List.mem_map.mpr
          ⟨(createDelivery dbX oid pid o.customerId pickupAddr addr).2,
            List.mem_append_right _ (List.mem_singleton.mpr rfl), by rw [if_pos rfl]⟩
      · intro hWFoid d' hd' hd'oid
        obtain ⟨x, hx, hfx⟩ := List.mem_map.mp hd'
        split at hfx
        · rw [← hfx]
        · rename_i hne
          rw [← hfx] at hd'oid
          rcases List.mem_append.mp hx with hxl | hxr
          · exact absurd hd'oid (hnone_oid x hxl)
          · exact absurd (congrArg DeliveryRow.id (List.mem_singleton.mp hxr)) hne

/-- C4: when the courier createOrder call fails for an order just marked
`ready_for_pickup` through the dashboard, the committed transition is never
unwound (every matching order row sits at `ready_for_pickup` and the endpoint
still answers ok), the delivery row for the order ends in status `failed`, and
the customer receives the "ready, delivery pending" fallback message when the
order has a delivery address and the plain "ready" message when it does not. -/
theorem booking_failure_keeps_order_ready :
    ∀ (db : DB) (orderId pharmacyId userId : Nat) (err : String)
      (order : OrderRow) (cust : CustomerRow) (pharm : PharmacyRow) (pickupAddr : Str),
      getOrderById db orderId pharmacyId = some (order, cust) →
      order.status = .confirmed ∨ order.status = .payment_confirmed →
      db.pharmacies.find? (fun p => decide (p.id = pharmacyId)) = some pharm →
      (match pharm.pickupAddress with
       | some pa => some pa
       | none => pharm.address) = some pickupAddr →
      db.deliveries.Pairwise (fun a b => a.id ≠ b.id) →
      db.deliveries.Pairwise (fun a b => a.orderId ≠ b.orderId) →
      ((updateOrderStatusReady true (.error err) db orderId pharmacyId userId true).2 =
          .ok ()) ∧
      ((updateOrderStatusReady true (.error err) db orderId pharmacyId userId
            true).1.orders =
          db.orders.map fun o =>
            if o.id = orderId ∧ o.pharmacyId = pharmacyId then
              applyTransitionUpdate .MARK_READY .ready_for_pickup o
            else o) ∧
      (∀ o' ∈ (updateOrderStatusReady true (.error err) db orderId pharmacyId userId
            true).1.orders,
          o'.id = orderId ∧ o'.pharmacyId = pharmacyId → o'.status = .ready_for_pickup) ∧
      (∀ addr, order.deliveryAddress = some addr →
        (∃ d ∈ (updateOrderStatusReady true (.error err) db orderId pharmacyId userId
              true).1.deliveries, d.orderId = orderId ∧ d.status = .failed) ∧
        (∀ d ∈ (updateOrderStatusReady true (.error err) db orderId pharmacyId userId
              true).1.deliveries, d.orderId = orderId → d.status = .failed) ∧
        ((⟨"out", some orderId, .outbound,
            orderReadyDeliveryPendingTemplate order.orderNumber⟩ : MessageRow) ∈
          (updateOrderStatusReady true (.error err) db orderId pharmacyId userId
            true).1.messages)) ∧
      (order.deliveryAddress = none →
        ((updateOrderStatusReady true (.error err) db orderId pharmacyId userId
            true).1.deliveries = db.deliveries) ∧
        ((⟨"out", some orderId, .outbound, orderReadyTemplate order.orderNumber⟩ :
            MessageRow) ∈
          (updateOrderStatusReady true (.error err) db orderId pharmacyId userId
            true).1.messages)) := by
  intro db orderId pharmacyId userId err order cust pharm pickupAddr
    hget hstat hpharm hpickup hWFid hWFoid
  have hnext : getNextStatus order.status .MARK_READY = some .ready_for_pickup := by
    rcases hstat with h | h <;> rw [h] <;> rfl
  obtain ⟨hfor, hfcu⟩ := getOrderById_inv db orderId pharmacyId order cust hget
  have htrans := transitionOrderStatus_ok_eq db orderId pharmacyId .MARK_READY
    (some userId) order cust .ready_for_pickup hget hnext
  have hfor2 : List.find?
      (fun o => decide (o.id = orderId ∧ o.pharmacyId = pharmacyId)) db.orders =
      some order := hfor
  have hfor1 : findOrderRow
      { db with
          orders := db.orders.map fun o =>
            if o.id = orderId ∧ o.pharmacyId = pharmacyId then
              applyTransitionUpdate .MARK_READY .ready_for_pickup o
            else o
          history := db.history ++
            [⟨orderId, some order.status, .ready_for_pickup, some userId,
              transitionReason .MARK_READY⟩] } orderId pharmacyId =
      some (applyTransitionUpdate .MARK_READY .ready_for_pickup order) := by
    unfold findOrderRow
    dsimp only
    rw [find?_map_ite db.orders (fun o => o.id = orderId ∧ o.pharmacyId = pharmacyId)
      (applyTransitionUpdate .MARK_READY .ready_for_pickup) (fun x => Iff.rfl)]
    rw [hfor2]
    rfl
  unfold updateOrderStatusReady
  rw [hget]
  dsimp only
  rw [htrans]
  dsimp only
  rw [if_pos rfl, if_pos rfl]
  cases haddrC : order.deliveryAddress with
  | some addr =>
      obtain ⟨db2, hbdan, hdb2o, hdb2h, hdb2m, hdex, hduniq⟩ :=
        bookDeliveryAndNotify_courier_error _ orderId pharmacyId err
          (applyTransitionUpdate .MARK_READY .ready_for_pickup order) cust pharm addr
          pickupAddr hfor1 hfcu hpharm haddrC hpickup hWFid
      rw [hbdan]
      dsimp only
      refine ⟨rfl, hdb2o, ?_, ?_, ?_⟩
      · intro o' ho' hkey
        have ho2 : o' ∈ db2.orders := ho'
        rw [hdb2o] at ho2
        dsimp only at ho2
        obtain ⟨x, hx, hfx⟩ := List.mem_map.mp ho2
        split at hfx
        · rw [← hfx]
          rfl
        · rename_i hne
          rw [← hfx] at hkey
          exact absurd hkey hne
      · intro addr2 haddr2
        obtain rfl := Option.some.inj haddr2
        refine ⟨hdex, ?_, ?_⟩
        · intro d hd hdo
          exact hduniq hWFoid d hd hdo
        · exact List.mem_append_right _ (List.mem_singleton.mpr rfl)
      · intro hnone
        exact Option.noConfusion hnone
  | none =>
      have hfcu1 : List.find? (fun c => decide (c.id =
          (applyTransitionUpdate OrderEvent.MARK_READY OrderStatus.ready_for_pickup
            order).customerId)) db.customers = some cust := hfcu
      have haddr1 : (applyTransitionUpdate OrderEvent.MARK_READY
          OrderStatus.ready_for_pickup order).deliveryAddress = (none : Option Str) :=
        haddrC
      unfold bookDeliveryAndNotify
      rw [hfor1]
      dsimp only
      rw [hfcu1]
      dsimp only
      rw [hpharm]
      dsimp only
      rw [haddr1]
      dsimp only
      refine ⟨rfl, rfl, ?_, ?_, ?_⟩
      · intro o' ho' hkey
        have ho2 : o' ∈ db.orders.map fun o =>
            if o.id = orderId ∧ o.pharmacyId = pharmacyId then
              applyTransitionUpdate OrderEvent.MARK_READY OrderStatus.ready_for_pickup o
            else o := ho'
        obtain ⟨x, hx, hfx⟩ := List.mem_map.mp ho2
        split at hfx
        · rw [← hfx]
          rfl
        · rename_i hne
          rw [← hfx] at hkey
          exact absurd hkey hne
      · intro addr2 haddr2
        exact Option.noConfusion haddr2
      · intro _
        exact ⟨rfl, List.mem_append_right _ (List.mem_singleton.mpr rfl)⟩

theorem booking_failure_keeps_order_ready_witness :
    (getOrderById c4db 10 2 = some (c4order, ⟨5, "phone5", none, none⟩)) ∧
    (c4order.status = OrderStatus.confirmed) ∧
    ((updateOrderStatusReady true (.error "network error") c4db 10 2 9 true).2 =
      .ok ()) ∧
    (∃ d ∈ (updateOrderStatusReady true (.error "network error") c4db 10 2 9
        true).1.deliveries, d.orderId = 10 ∧ d.status = .failed) ∧
    ((⟨"out", some 10, .outbound,
        orderReadyDeliveryPendingTemplate c4order.orderNumber⟩ : MessageRow) ∈
      (updateOrderStatusReady true (.error "network error") c4db 10 2 9
        true).1.messages) := by
  have h := booking_failure_keeps_order_ready c4db 10 2 9 "network error" c4order
    ⟨5, "phone5", none, none⟩ (mkPharmacy 2 (some "Shop 3".toList)) "Shop 3".toList
    (by decide) (Or.inl (by decide)) (by decide) (by decide) List.Pairwise.nil
    List.Pairwise.nil
  have h4 := h.2.2.2.1 "Flat 1, X road 560001".toList (by decide)
  exact ⟨by decide, by decide, h.1, h4.1, h4.2.2⟩
